import Mathlib

/-!
Shallow embedding of the `behavior-based-retrieval` service (Python sources
under `app/`) together with proofs about the claims of its specification.

Conventions used throughout:
* Python `float` values are modelled as exact rationals (`ℚ`) where the code
  only performs field operations and comparisons, and as real numbers (`ℝ`)
  where a square root is taken (L2 normalization).
* Python `None` becomes `Option.none`; fallible operations return `Except`.
* The SQLite store is modelled as explicit lists of row structures that are
  threaded through the operations; `time.time()`, environment variables,
  `uuid`, the timezone database and SQLite's `CAST(… AS REAL)` are external
  inputs and appear as explicit parameters.
* Each definition mirrors one Python function of the source and keeps its
  name (a leading underscore is kept as in the source).
-/

namespace BBR

/-! ### Python string primitives -/

/-- Python `str.lower()` (the texts involved are ASCII). -/
def pyLower (s : String) : String := String.mk (s.data.map Char.toLower)

/-- Python `str.upper()` (the texts involved are ASCII). -/
def pyUpper (s : String) : String := String.mk (s.data.map Char.toUpper)

/-- Does `pre` occur at the head of `l`? Helper for the substring test. -/
def leadMatch : List Char → List Char → Bool
  | [], _ => true
  | _ :: _, [] => false
  | a :: as, b :: bs => a == b && leadMatch as bs

/-- Does `needle` occur as a contiguous sublist of `hay`? -/
def listHasSub (needle : List Char) : List Char → Bool
  | [] => leadMatch needle []
  | c :: rest => leadMatch needle (c :: rest) || listHasSub needle rest

/-- Python `needle in hay` on strings (contiguous substring test). -/
def strHasSub (hay needle : String) : Bool := listHasSub needle.data hay.data

/-- Lexicographic strict order on code-point lists (Python string `<`). -/
def listCharLT : List Char → List Char → Bool
  | [], [] => false
  | [], _ :: _ => true
  | _ :: _, [] => false
  | a :: as, b :: bs =>
    if a.toNat < b.toNat then true
    else if b.toNat < a.toNat then false
    else listCharLT as bs

/-- Python `a < b` on strings (lexicographic on code points). -/
def strLT (a b : String) : Bool := listCharLT a.data b.data

/-! ### Data model: messages and threads (`app/db.py`, `app/threading.py`) -/

/-- One row of the `messages` table. -/
structure Message where
  channel : String
  ts : String
  thread_ts : String
  user : Option String
  text : Option String
  reactions_json : Option String
  is_deleted : Bool
  edited_at : Option ℚ
  created_at : ℚ
deriving Repr, DecidableEq

/-- `db.get_messages_for_thread`: all rows with the given `thread_ts`,
ordered by `CAST(ts AS REAL)` ascending.  `castReal` is SQLite's string to
real cast, supplied by the store. -/
def get_messages_for_thread (castReal : String → ℚ) (msgs : List Message)
    (thread_ts : String) : List Message :=
  List.insertionSort (fun a b => castReal a.ts ≤ castReal b.ts)
    (msgs.filter (fun m => m.thread_ts == thread_ts))

/-- `db.mark_message_deleted`: set `is_deleted = 1` and `edited_at = now`
for the row keyed by `(channel, ts)`; the stored `text` is left unchanged. -/
def mark_message_deleted (msgs : List Message) (channel ts : String) (now : ℚ) :
    List Message :=
  msgs.map (fun m =>
    if m.channel == channel && m.ts == ts then
      { m with is_deleted := true, edited_at := some now }
    else m)

/-- Python truthiness of an optional string (`None` and `""` are falsy). -/
def truthyStr : Option String → Bool
  | none => false
  | some s => !s.isEmpty

/-- `enrichment.build_summary`: first line from the root's text if non-empty,
then up to five replies in thread order, each contributing a `"- "` line when
its text is non-empty. -/
def build_summary (messages : List Message) : String :=
  match messages with
  | [] => ""
  | root :: rest =>
    let replies := rest.take 5
    let rootLines := if truthyStr root.text then ["- " ++ root.text.getD ""] else []
    let lines := rootLines ++ (replies.filter (fun r => truthyStr r.text)).map
      (fun r => "- " ++ r.text.getD "")
    String.intercalate "\n" lines

/-! ### Event payloads and routing (`app/models.py`, `app/queueing.py`) -/

/-- `models.SlackReaction`. -/
structure SlackReaction where
  name : String
  count : Int
deriving Repr, DecidableEq

/-- `models.SlackInnerEvent` (the fields the embedded operations read). -/
structure SlackInnerEvent where
  type : String
  channel : Option String := none
  user : Option String := none
  text : Option String := none
  ts : Option String := none
  thread_ts : Option String := none
  reactions : Option (List SlackReaction) := none
  subtype : Option String := none
  reaction : Option String := none
deriving Repr, DecidableEq

/-- `models.SlackEventPayload` (the fields the embedded operations read). -/
structure SlackEventPayload where
  event_id : String
  team_id : Option String := none
  type : String
  event : SlackInnerEvent
deriving Repr, DecidableEq

/-- `queueing.HOT_SIGNALS`. -/
def HOT_SIGNALS : List String :=
  ["decision needed", "by friday", "blocker", "urgent", "evt"]

/-- The hot/standard queues of `queueing.QueueManager` (FIFO lists). -/
structure QueueState where
  hot : List SlackEventPayload := []
  standard : List SlackEventPayload := []
  backfill : List SlackEventPayload := []
deriving Repr, DecidableEq

/-- `queueing._has_rotating_light`: true iff the (possibly absent) reactions
list holds an entry named `rotating_light`. -/
def _has_rotating_light (reactions : Option (List SlackReaction)) : Bool :=
  match reactions with
  | none => false
  | some rs => rs.any (fun r => r.name == "rotating_light")

/-- `queueing.route_job`: route to `hot` iff the case-folded text contains a
hot signal or the reactions list carries `rotating_light`; otherwise route to
`standard`.  Returns the queue name and the updated queues. -/
def route_job (payload : SlackEventPayload) (qs : QueueState) :
    String × QueueState :=
  let text := pyLower (payload.event.text.getD "")
  if HOT_SIGNALS.any (fun s => strHasSub text s)
      || _has_rotating_light payload.event.reactions then
    ("hot", { qs with hot := qs.hot ++ [payload] })
  else
    ("standard", { qs with standard := qs.standard ++ [payload] })

/-- The condition C6 states for hot routing, written from the claim: text
contains a hot signal, or the reactions list carries `rotating_light`, or the
event's `reaction` field equals `"rotating_light"` (as on a `reaction_added`
event). -/
def claimedHotCondition (payload : SlackEventPayload) : Prop :=
  (∃ s ∈ HOT_SIGNALS, strHasSub (pyLower (payload.event.text.getD "")) s = true)
    ∨ (∃ rs, payload.event.reactions = some rs ∧
        ∃ r ∈ rs, r.name = "rotating_light")
    ∨ payload.event.reaction = some "rotating_light"

/-! ### Intake (`app/ingest.py`, `app/db.py`) -/

/-- The store and queue state the ingest path touches: the `dedupe_events`
table (rows `(event_id, received_at)`), the `raw_events` table, and the
in-process queues. -/
structure IngestState where
  dedupe : List (String × ℚ) := []
  raw : List (String × ℚ × SlackEventPayload) := []
  queues : QueueState := {}
deriving Repr, DecidableEq

/-- `db.insert_dedupe`: `INSERT OR IGNORE` on the primary key `event_id`;
returns whether a row was inserted (`rowcount == 1`), together with the
updated table. -/
def insert_dedupe (table : List (String × ℚ)) (event_id : String) (now : ℚ) :
    Bool × List (String × ℚ) :=
  if table.any (fun r => r.1 == event_id) then (false, table)
  else (true, table ++ [(event_id, now)])

/-- `ingest.ingest_payload`: dedupe first; a duplicate short-circuits with
`(false, event_id)` and leaves the state unchanged; a first sighting stores
the raw event and routes the job. -/
def ingest_payload (st : IngestState) (payload : SlackEventPayload) (now : ℚ) :
    (Bool × String) × IngestState :=
  let r := insert_dedupe st.dedupe payload.event_id now
  if !r.1 then
    ((false, payload.event_id), { st with dedupe := r.2 })
  else
    let st1 : IngestState := { st with dedupe := r.2 }
    let st2 : IngestState := { st1 with raw := st1.raw ++ [(payload.event_id, now, payload)] }
    ((true, payload.event_id), { st2 with queues := (route_job payload st2.queues).2 })

/-! ### Delivery (`app/delivery.py`, `app/db.py`) -/

/-- One row of the `digest_deliveries` table. -/
structure DeliveryRow where
  delivery_id : String
  digest_id : String
  team_id : String
  user_id : String
  delivered_at : ℚ
  status : String
  slack_ts : Option String
  error : Option String
deriving Repr, DecidableEq

/-- One row of the `digests` table (the fields the scheduler join reads). -/
structure DigestRow where
  digest_id : String
  user_id : String
  project_id : String
deriving Repr, DecidableEq

/-- `db.fetch_delivery_by_digest`: first stored row with the given
`digest_id` (SQLite `fetchone` in table order). -/
def fetch_delivery_by_digest (rows : List DeliveryRow) (digest_id : String) :
    Option DeliveryRow :=
  (rows.filter (fun r => r.digest_id == digest_id)).head?

/-- Result of `delivery.deliver_digest`. -/
structure DeliverResult where
  status : String
  delivery_id : String
  slack_ts : Option String := none
deriving Repr, DecidableEq

/-- `delivery.deliver_digest`.  The two outbound chat-API calls are an
external collaborator, summarised by `api`: `Except.ok ts` when both calls
succeed and the post returns timestamp `ts`, `Except.error e` when an
exception with message `e` is raised.  `new_delivery_id` is the freshly drawn
`del-<uuid>` identifier and `now` the wall clock at insertion. -/
def deliver_digest (rows : List DeliveryRow) (digest_id team_id user_id : String)
    (api : Except String (Option String)) (new_delivery_id : String) (now : ℚ) :
    DeliverResult × List DeliveryRow :=
  match fetch_delivery_by_digest rows digest_id with
  | some existing =>
    ({ status := "duplicate", delivery_id := existing.delivery_id }, rows)
  | none =>
    match api with
    | .ok slack_ts =>
      ({ status := "delivered", delivery_id := new_delivery_id, slack_ts := slack_ts },
        rows ++ [{ delivery_id := new_delivery_id, digest_id := digest_id,
                   team_id := team_id, user_id := user_id, delivered_at := now,
                   status := "delivered", slack_ts := slack_ts, error := none }])
    | .error e =>
      ({ status := "failed", delivery_id := new_delivery_id },
        rows ++ [{ delivery_id := new_delivery_id, digest_id := digest_id,
                   team_id := team_id, user_id := user_id, delivered_at := now,
                   status := "failed", slack_ts := none, error := some e }])

/-! ### Scheduler (`app/scheduling.py`, `app/db.py`) -/

/-- One row of the `digest_schedules` table, with the `cron_json` fields
already parsed (`time_of_day` defaulting to `"09:00"`, `timezone` to
`"UTC"`, as `cron.get` does). -/
structure ScheduleRow where
  schedule_id : String
  team_id : String
  project_id : String
  user_id : String
  time_of_day : String
  timezone : String
  is_enabled : Bool
deriving Repr, DecidableEq

/-- Zero-padded two-digit rendering of `0 ≤ n < 100`, as `strftime` emits. -/
def pad2 (n : ℤ) : String :=
  if n < 10 then "0" ++ toString n else toString n

/-- Local `"%H:%M"` string for UTC timestamp `now_utc` at a fixed offset of
`tzOffsetMin` minutes from UTC (the timezone database is an external input). -/
def localHHMM (tzOffsetMin : ℤ) (now_utc : ℚ) : String :=
  let mins : ℤ := (Int.fdiv ⌊now_utc⌋ 60) + tzOffsetMin
  let m : ℤ := mins % 1440
  pad2 (m / 60) ++ ":" ++ pad2 (m % 60)

/-- The local minute index of a UTC timestamp at a fixed offset. -/
def localMinute (tzOffsetMin : ℤ) (t : ℚ) : ℤ :=
  (Int.fdiv ⌊t⌋ 60) + tzOffsetMin

/-- `db.fetch_latest_delivery_for_schedule`: join deliveries with digests on
`digest_id`, keep rows matching `(team_id, user_id, project_id)`, order by
`delivered_at` descending and return the first.  The `now_utc` and `tz_name`
arguments are accepted and ignored, as in the source. -/
def fetch_latest_delivery_for_schedule (deliveries : List DeliveryRow)
    (digests : List DigestRow) (team_id project_id user_id : String)
    (_now_utc : ℚ) (_tz_name : String) : Option DeliveryRow :=
  let rows := deliveries.filter (fun dd =>
    dd.team_id == team_id && dd.user_id == user_id &&
      digests.any (fun d => d.digest_id == dd.digest_id && d.project_id == project_id))
  (List.insertionSort (fun a b => b.delivered_at ≤ a.delivered_at) rows).head?

/-- `scheduling._is_due`: fire iff the schedule's local `HH:MM` equals its
`time_of_day` and the coarse delivery lookup finds nothing.  `tzdb` resolves
a timezone name to its offset in minutes; an unknown name falls back to UTC
(offset `0`), as the `except` clause does. -/
def _is_due (tzdb : String → Option ℤ) (deliveries : List DeliveryRow)
    (digests : List DigestRow) (s : ScheduleRow) (now_utc : ℚ) : Bool :=
  let offset := (tzdb s.timezone).getD 0
  let now := localHHMM offset now_utc
  if now != s.time_of_day then false
  else
    (fetch_latest_delivery_for_schedule deliveries digests
      s.team_id s.project_id s.user_id now_utc s.timezone).isNone

/-- One tick of `scheduling.scheduler_loop` for one schedule: the loop skips
disabled schedules and otherwise fires (builds and delivers a digest) iff
`_is_due` holds. -/
def scheduler_fires (tzdb : String → Option ℤ) (deliveries : List DeliveryRow)
    (digests : List DigestRow) (s : ScheduleRow) (now_utc : ℚ) : Bool :=
  s.is_enabled && _is_due tzdb deliveries digests s now_utc

/-- The firing condition C2 states, written from the claim: the local time
string matches, and no prior delivery for `(team_id, project_id, user_id)`
has a `delivered_at` in the current local minute. -/
def claimedFires (tzdb : String → Option ℤ) (deliveries : List DeliveryRow)
    (digests : List DigestRow) (s : ScheduleRow) (now_utc : ℚ) : Prop :=
  let offset := (tzdb s.timezone).getD 0
  localHHMM offset now_utc = s.time_of_day ∧
    ∀ dd ∈ deliveries,
      (dd.team_id = s.team_id ∧ dd.user_id = s.user_id ∧
        (∃ d ∈ digests, d.digest_id = dd.digest_id ∧ d.project_id = s.project_id)) →
      localMinute offset dd.delivered_at ≠ localMinute offset now_utc

/-! ### Retrieval (`app/retrieval.py`, `app/db.py`) -/

/-- One row of the `projects` table; `channels_json` is the nullable JSON
text column, modelled parsed (`none` for SQL `NULL` or an empty string). -/
structure ProjectRow where
  project_id : String
  name : String
  current_phase : String
  channels_json : Option (List String)
deriving Repr, DecidableEq

/-- One row of the `digest_items` table (parsed columns). -/
structure ItemRow where
  thread_ts : String
  channel : String
  labels : List String
  entities : List (String × List String)
  urgency : Option ℚ
  updated_at : ℚ
  title : String
  summary : String
deriving Repr, DecidableEq

/-- One row of the `embeddings` table (parsed vector). -/
structure EmbeddingRow where
  thread_ts : String
  vector : List ℚ
deriving Repr, DecidableEq

/-- A candidate dict produced by `retrieval.load_candidate_items`. -/
structure CandidateRow where
  thread_ts : String
  vector : List ℚ
  urgency : ℚ
  labels : List String
  entities : List (String × List String)
  updated_at : ℚ
  title : String
  summary : String
deriving Repr, DecidableEq

/-- `db.fetch_project`. -/
def fetch_project (projects : List ProjectRow) (project_id : String) :
    Option ProjectRow :=
  (projects.filter (fun p => p.project_id == project_id)).head?

/-- `retrieval._load_project_channels`: unknown project raises
`project_not_found`; a null/empty `channels_json` yields `None`, and a parsed
empty list also collapses to `None` (`channels or None`). -/
def _load_project_channels (projects : List ProjectRow) (project_id : String) :
    Except String (Option (List String)) :=
  match fetch_project projects project_id with
  | none => .error "project_not_found"
  | some p =>
    match p.channels_json with
    | none => .ok none
    | some cs => .ok (if cs.isEmpty then none else some cs)

/-- The pure part of `retrieval.load_candidate_items` after the channel set
has been resolved: window filter and channel restriction in SQL (a `None` or
empty channel list means no restriction, Python truthiness of `channels`),
embedding join, then the label filter. -/
def load_candidate_rows (items : List ItemRow) (embeddings : List EmbeddingRow)
    (channels : Option (List String)) (since : ℚ)
    (label_filter : List String) : List CandidateRow :=
  let rows := items.filter (fun di =>
    decide (since ≤ di.updated_at) &&
      (match channels with
       | some cs => if cs.isEmpty then true else cs.contains di.channel
       | none => true))
  rows.filterMap (fun di =>
    match embeddings.find? (fun e => e.thread_ts == di.thread_ts) with
    | none => none
    | some e =>
      if label_filter ≠ [] ∧ ¬ label_filter.any (fun l => di.labels.contains l) then
        none
      else
        some { thread_ts := di.thread_ts, vector := e.vector,
               urgency := di.urgency.getD 0, labels := di.labels,
               entities := di.entities, updated_at := di.updated_at,
               title := di.title, summary := di.summary })

/-- `retrieval.load_candidate_items`: resolve the channel restriction from
the project (propagating `project_not_found`), default the window, upper-case
the label filter, and query. -/
def load_candidate_items (projects : List ProjectRow) (items : List ItemRow)
    (embeddings : List EmbeddingRow) (project_id : Option String)
    (channels0 : Option (List String)) (since_ts0 : Option ℚ)
    (label_filter0 : Option (List String)) (now window_hours : ℚ) :
    Except String (List CandidateRow) :=
  let channelsE : Except String (Option (List String)) :=
    match project_id with
    | some pid => _load_project_channels projects pid
    | none => .ok channels0
  match channelsE with
  | .error e => .error e
  | .ok channels =>
    .ok (load_candidate_rows items embeddings channels
      (since_ts0.getD (now - window_hours * 3600))
      ((label_filter0.getD []).map pyUpper))

/-- A concrete one-channel project used to exercise the channel scoping. -/
def c3Project : ProjectRow :=
  { project_id := "P", name := "Alpha", current_phase := "EVT",
    channels_json := some ["C1"] }

/-- A concrete digest item in that project's channel. -/
def c3Item : ItemRow :=
  { thread_ts := "t1", channel := "C1", labels := [], entities := [],
    urgency := some 1, updated_at := 100, title := "T", summary := "S" }

/-- A concrete stored embedding for that item. -/
def c3Emb : EmbeddingRow := { thread_ts := "t1", vector := [1] }

/-! ### Rerank (`app/rerank.py`, `app/retrieval.py`) -/

/-- A candidate dict as threaded through `rerank_candidates`: the retrieval
fields plus `sim_score` (added by `retrieve_top_k` / the callers) and the
fields written during reranking. -/
structure Cand where
  thread_ts : String
  vector : List ℚ
  sim_score : ℚ
  urgency : ℚ
  updated_at : ℚ
  labels : List String
  recency : ℚ := 0
  ownership : ℚ := 0
  base_score : ℚ := 0
  force_included : Bool := false
  diversity_penalty : ℚ := 0
  final_score : ℚ := 0
deriving Repr, DecidableEq

/-- `retrieval.cosine_sim` (`np.dot`; the embeddings are already L2
normalized, so this is the cosine). -/
def cosine_sim (q v : List ℚ) : ℚ := (List.zipWith (· * ·) q v).sum

/-- `rerank._recency_score`. -/
def _recency_score (updated_at now window_seconds : ℚ) : ℚ :=
  if window_seconds ≤ 0 then 0
  else
    let age := now - updated_at
    if age ≤ 0 then 1
    else if window_seconds ≤ age then 0
    else 1 - age / window_seconds

/-- `rerank._ownership_score`: 1 iff some message of the thread was authored
by the user or mentions `<@user>` in its text. -/
def _ownership_score (castReal : String → ℚ) (msgs : List Message)
    (thread_ts user_id : String) : ℚ :=
  let mention := "<@" ++ user_id ++ ">"
  if (get_messages_for_thread castReal msgs thread_ts).any (fun m =>
      m.user == some user_id || strHasSub (m.text.getD "") mention) then 1 else 0

/-- `rerank._base_score`. -/
def _base_score (sim urgency ownership recency : ℚ) : ℚ :=
  55/100 * sim + 20/100 * urgency + 15/100 * ownership + 10/100 * recency

/-- One step of Python's lexicographic tuple comparison on a negated
(descending) numeric component: `-x ≤ -y` decides unless `x = y`, in which
case the rest of the tuple decides. -/
def lexDesc (x y : ℚ) (rest : Bool) : Bool :=
  if y < x then true
  else if x < y then false
  else rest

/-- The final (ascending string) component of the sort keys. -/
def lexStr (s t : String) : Bool :=
  if strLT s t then true
  else if strLT t s then false
  else true

/-- Boolean `≤` on the rerank sort key
`(-final_score, -base_score, -urgency, -updated_at, thread_ts)` (Python's
lexicographic tuple order). -/
def rLE (a b : Cand) : Bool :=
  lexDesc a.final_score b.final_score <|
    lexDesc a.base_score b.base_score <|
      lexDesc a.urgency b.urgency <|
        lexDesc a.updated_at b.updated_at <|
          lexStr a.thread_ts b.thread_ts

/-- Boolean `≤` on the must-include sort key
`(-base_score, -urgency, -updated_at, thread_ts)`. -/
def mLE (a b : Cand) : Bool :=
  lexDesc a.base_score b.base_score <|
    lexDesc a.urgency b.urgency <|
      lexDesc a.updated_at b.updated_at <|
        lexStr a.thread_ts b.thread_ts

/-- Python `max` over a sims list computed against the selected set; for an
empty selected set the loop uses `0.0`. -/
def maxSim (selected : List Cand) (v : List ℚ) : ℚ :=
  match selected.map (fun s => cosine_sim v s.vector) with
  | [] => 0
  | x :: xs => xs.foldl max x

/-- One recomputation of `diversity_penalty` and `final_score` for a
remaining candidate against the currently selected list. -/
def updateFinal (lambda_diversity : ℚ) (selected : List Cand) (c : Cand) : Cand :=
  let penalty := lambda_diversity * maxSim selected c.vector
  { c with diversity_penalty := penalty, final_score := c.base_score - penalty }

/-- The `while remaining and len(selected) < n` loop of
`rerank_candidates`, with fuel `|remaining|` (each iteration consumes exactly
one remaining candidate). -/
def mmrLoop (lambda_diversity : ℚ) : ℕ → List Cand → List Cand → ℕ → List Cand
  | 0, selected, _, _ => selected
  | fuel + 1, selected, remaining, n =>
    if remaining.isEmpty || n ≤ selected.length then selected
    else
      let rescored := remaining.map (updateFinal lambda_diversity selected)
      match List.insertionSort (fun a b => rLE a b = true) rescored with
      | [] => selected
      | c :: rest => mmrLoop lambda_diversity fuel (selected ++ [c]) rest n

/-- The enrichment pass at the top of `rerank_candidates`. -/
def enrichCand (castReal : String → ℚ) (msgs : List Message) (user_id : String)
    (now window_seconds : ℚ) (c : Cand) : Cand :=
  let recency := _recency_score c.updated_at now window_seconds
  let ownership := _ownership_score castReal msgs c.thread_ts user_id
  let base := _base_score c.sim_score c.urgency ownership recency
  { c with recency := recency, ownership := ownership, base_score := base,
           force_included := false, diversity_penalty := 0, final_score := base }

/-- The must-include pool: urgency at least `0.8` and `BLOCKER` or `DECISION`
among the labels. -/
def mustIncludePool (enriched : List Cand) : List Cand :=
  enriched.filter (fun c =>
    (c.labels.contains "BLOCKER" || c.labels.contains "DECISION") &&
      decide ((8 : ℚ)/10 ≤ c.urgency))

/-- `rerank.rerank_candidates`.  `now` and `window_seconds` stand for
`time.time()` and the configured retrieval window; `msgs` is the message
store consulted by the ownership score. -/
def rerank_candidates (castReal : String → ℚ) (msgs : List Message)
    (candidates : List Cand) (user_id : String) (n : ℕ)
    (lambda_diversity now window_seconds : ℚ) : List Cand :=
  let enriched := candidates.map (enrichCand castReal msgs user_id now window_seconds)
  let must_include := mustIncludePool enriched
  let selected :=
    if must_include.isEmpty then ([] : List Cand)
    else
      match List.insertionSort (fun a b => mLE a b = true) must_include with
      | [] => []
      | forced :: _ => [{ forced with force_included := true }]
  let selectedTs := selected.map (fun s => s.thread_ts)
  let remaining := enriched.filter (fun c => !(selectedTs.contains c.thread_ts))
  mmrLoop lambda_diversity remaining.length selected remaining n

/-- Two candidate records agreeing on every field the rerank sort keys read
except the recomputed `final_score`/`diversity_penalty`. -/
def sameBase (a b : Cand) : Prop :=
  a.base_score = b.base_score ∧ a.urgency = b.urgency ∧
    a.updated_at = b.updated_at ∧ a.thread_ts = b.thread_ts ∧
    a.vector = b.vector

/-- The `≤` relation of the rerank sort key, as a proposition. -/
def rLEP (a b : Cand) : Prop := rLE a b = true

/-- The `≤` relation of the must-include sort key, as a proposition. -/
def mLEP (a b : Cand) : Prop := mLE a b = true

/-! ### Vectors over ℝ (`app/embedding.py`) -/

/-- Sum of squares of a real vector. -/
noncomputable def sql (v : List ℝ) : ℝ := (v.map (fun x => x * x)).sum

/-- Dot product of real vectors (componentwise, truncating like `zip`). -/
noncomputable def dotR (a b : List ℝ) : ℝ := (List.zipWith (· * ·) a b).sum

/-- Modelled from the spec: the function `normalize` that `app/feedback.py`
and `app/profiles.py` import from `app.embedding` is defined nowhere in the
source tree; §4.5 of the spec fixes its meaning as L2 normalization with the
zero vector left unchanged. -/
noncomputable def normalize (v : List ℝ) : List ℝ :=
  let n := Real.sqrt (sql v)
  if n = 0 then v else v.map (fun x => x / n)

/-- `embedding._tokenize`: case-fold, split on whitespace, drop empties. -/
def _tokenize (text : String) : List String :=
  ((pyLower text).split (fun c => c.isWhitespace)).filter (fun t => !t.isEmpty)

/-- Add `1.0` at index `i` of the bucket vector. -/
def bumpAt (v : List ℝ) (i : ℕ) : List ℝ :=
  v.mapIdx (fun j x => if j = i then x + 1 else x)

/-- `embedding.compute_embedding`.  `hashInt t` is the SHA-256 hex digest of
token `t` read as a big integer (`hashlib` is an external library, supplied
as a parameter); the bucket is that integer modulo `dim`. -/
noncomputable def compute_embedding (hashInt : String → ℕ) (dim : ℕ)
    (text : String) : List ℝ :=
  let tokens := _tokenize text
  if tokens.isEmpty then List.replicate dim 0
  else
    let vector := tokens.foldl (fun v t => bumpAt v (hashInt t % dim)) (List.replicate dim 0)
    let norm := Real.sqrt (sql vector)
    if norm = 0 then vector else vector.map (fun x => x / norm)

/-! ### Module loading (`app/embedding.py`, `app/feedback.py`,
`app/profiles.py`, `app/digest.py`)

A Python `from M import n` statement executed while loading a module raises
`ImportError` when `n` is not bound at top level of `M`, and the importing
module then fails to load, so none of its functions can ever be called. -/

/-- The names bound at top level of `app/embedding.py`: its imports
(`hashlib`, `math`, `Iterable`, `List`), the constant `DEFAULT_DIM` and its
three functions. -/
def embeddingModuleNames : List String :=
  ["hashlib", "math", "Iterable", "List", "DEFAULT_DIM", "_tokenize",
   "compute_embedding", "embed_and_store"]

/-- Does `app/feedback.py` load?  Its line 8 is
`from app.embedding import normalize`. -/
def feedbackModuleLoads : Bool := embeddingModuleNames.contains "normalize"

/-- Does `app/profiles.py` load?  Its line 7 is
`from app.embedding import compute_embedding, normalize`. -/
def profilesModuleLoads : Bool :=
  embeddingModuleNames.contains "compute_embedding" &&
    embeddingModuleNames.contains "normalize"

/-- Does `app/digest.py` load?  Its line 8 imports `get_query_vector` from
`app.profiles`, which requires `app.profiles` itself to load. -/
def digestModuleLoads : Bool := profilesModuleLoads

/-- The error every call into a module that failed to load surfaces. -/
def importErrorMsg : String :=
  "ImportError: cannot import name normalize from app.embedding"

/-! ### Profiles and the query vector (`app/profiles.py`) -/

/-- One row of the `roles` table (vector column parsed). -/
structure RoleRow where
  role_id : String
  name : String
  description : String
  role_vector : List ℝ

/-- One row of the `phases` table (vector column parsed). -/
structure PhaseRow where
  phase_key : String
  description : String
  phase_vector : List ℝ

/-- `db.upsert_role` (`INSERT … ON CONFLICT DO UPDATE`). -/
def upsert_role (roles : List RoleRow) (r : RoleRow) : List RoleRow :=
  if roles.any (fun x => x.role_id == r.role_id) then
    roles.map (fun x => if x.role_id == r.role_id then r else x)
  else roles ++ [r]

/-- `db.upsert_phase` (`INSERT … ON CONFLICT DO UPDATE`). -/
def upsert_phase (phases : List PhaseRow) (p : PhaseRow) : List PhaseRow :=
  if phases.any (fun x => x.phase_key == p.phase_key) then
    phases.map (fun x => if x.phase_key == p.phase_key then p else x)
  else phases ++ [p]

/-- Body of `profiles.create_role` (embed the description, normalize,
persist). -/
noncomputable def create_role_core (hashInt : String → ℕ) (roles : List RoleRow)
    (role_id name description : String) : List ℝ × List RoleRow :=
  let vector := normalize (compute_embedding hashInt 64 description)
  (vector, upsert_role roles
    { role_id := role_id, name := name, description := description,
      role_vector := vector })

/-- `profiles.create_role` as callable from outside: every call fails with
`ImportError` when `app.profiles` did not load. -/
noncomputable def create_role (hashInt : String → ℕ) (roles : List RoleRow)
    (role_id name description : String) : Except String (List ℝ × List RoleRow) :=
  if profilesModuleLoads then .ok (create_role_core hashInt roles role_id name description)
  else .error importErrorMsg

/-- Body of `profiles.create_phase`. -/
noncomputable def create_phase_core (hashInt : String → ℕ) (phases : List PhaseRow)
    (phase_key description : String) : List ℝ × List PhaseRow :=
  let vector := normalize (compute_embedding hashInt 64 description)
  (vector, upsert_phase phases
    { phase_key := phase_key, description := description, phase_vector := vector })

/-- `profiles.create_phase` as callable from outside. -/
noncomputable def create_phase (hashInt : String → ℕ) (phases : List PhaseRow)
    (phase_key description : String) : Except String (List ℝ × List PhaseRow) :=
  if profilesModuleLoads then .ok (create_phase_core hashInt phases phase_key description)
  else .error importErrorMsg

/-- Python `user_vec or role_vec` on a parsed optional list (`None` and the
empty list are falsy). -/
def pyOrVec (u : Option (List ℝ)) (r : List ℝ) : List ℝ :=
  match u with
  | none => r
  | some l => if l.isEmpty then r else l

/-- Return value of `profiles.weighted_query_vector` (the
`component_top_indices` diagnostic, which orders indices by absolute
contribution, is omitted from the model). -/
structure QueryVectorResult where
  q_vector : List ℝ
  weight_role : ℝ
  weight_user : ℝ
  weight_phase : ℝ
  norm_role : ℝ
  norm_user : ℝ
  norm_phase : ℝ

/-- Body of `profiles.weighted_query_vector`: when `phase_vec is None` the
phase weight becomes zero and the role/user weights are divided by
`w_role + w_user`; the contributions are combined componentwise and L2
normalized.  (A present-but-empty `phase_vec` keeps the configured weights
but contributes a zero vector, mirroring the two distinct truthiness tests
in the source.) -/
noncomputable def weighted_query_vector (role_vec : List ℝ)
    (user_vec phase_vec : Option (List ℝ)) (w_role w_user w_phase : ℝ) :
    QueryVectorResult :=
  let effective_user := pyOrVec user_vec role_vec
  let weights : ℝ × ℝ × ℝ :=
    match phase_vec with
    | none => (w_role / (w_role + w_user), w_user / (w_role + w_user), 0)
    | some _ => (w_role, w_user, w_phase)
  let contrib_role := role_vec.map (fun v => weights.1 * v)
  let contrib_user := effective_user.map (fun v => weights.2.1 * v)
  let contrib_phase :=
    match phase_vec with
    | some p => if p.isEmpty then List.replicate role_vec.length (0 : ℝ)
                else p.map (fun v => weights.2.2 * v)
    | none => List.replicate role_vec.length 0
  let combined := List.zipWith3 (fun a b c => a + b + c)
    contrib_role contrib_user contrib_phase
  { q_vector := normalize combined
    weight_role := weights.1
    weight_user := weights.2.1
    weight_phase := weights.2.2
    norm_role := Real.sqrt (sql contrib_role)
    norm_user := Real.sqrt (sql contrib_user)
    norm_phase := Real.sqrt (sql contrib_phase) }

/-- `profiles.weighted_query_vector` as callable from outside: every call
fails with `ImportError` when `app.profiles` did not load. -/
noncomputable def weighted_query_vector_call (role_vec : List ℝ)
    (user_vec phase_vec : Option (List ℝ)) (w_role w_user w_phase : ℝ) :
    Except String QueryVectorResult :=
  if profilesModuleLoads then
    .ok (weighted_query_vector role_vec user_vec phase_vec w_role w_user w_phase)
  else .error importErrorMsg

/-! ### Feedback (`app/feedback.py`) -/

/-- `feedback.POSITIVE_ACTIONS`. -/
def POSITIVE_ACTIONS : List String := ["click", "save", "thumbs_up"]

/-- `feedback.NEGATIVE_ACTIONS`. -/
def NEGATIVE_ACTIONS : List String := ["thumbs_down", "dismiss"]

/-- `feedback.ALL_ACTIONS` (set union; only membership is used). -/
def ALL_ACTIONS : List String := POSITIVE_ACTIONS ++ NEGATIVE_ACTIONS

/-- One row of the `users` table (vector column parsed; `none` for NULL). -/
structure UserRow where
  user_id : String
  name : String
  role_id : Option String
  user_vector : Option (List ℝ)
  updated_at : Option ℝ

/-- One row of the `embeddings` table, parsed over ℝ. -/
structure EmbRowR where
  thread_ts : String
  vector : List ℝ

/-- One row of the `interactions` table. -/
structure InteractionRow where
  interaction_id : String
  user_id : String
  project_id : String
  thread_ts : String
  action : String

/-- The store slice `apply_feedback` touches. -/
structure FeedbackDb where
  users : List UserRow
  roles : List RoleRow
  embeddings : List EmbRowR
  interactions : List InteractionRow

/-- `db.fetch_user`. -/
def fetch_user (users : List UserRow) (user_id : String) : Option UserRow :=
  (users.filter (fun u => u.user_id == user_id)).head?

/-- `db.fetch_role`. -/
def fetch_role (roles : List RoleRow) (role_id : String) : Option RoleRow :=
  (roles.filter (fun r => r.role_id == role_id)).head?

/-- `db.fetch_embedding`, parsed over ℝ. -/
def fetch_embeddingR (embeddings : List EmbRowR) (thread_ts : String) :
    Option EmbRowR :=
  (embeddings.filter (fun e => e.thread_ts == thread_ts)).head?

/-- `db.update_user_vector`. -/
def update_user_vector (users : List UserRow) (user_id : String)
    (vector : List ℝ) : List UserRow :=
  users.map (fun u => if u.user_id == user_id then { u with user_vector := some vector } else u)

/-- `feedback._decay_user_vector`: blend toward the role vector only when the
user vector is older than `decay_days` days. -/
noncomputable def _decay_user_vector (user_vec role_vec : List ℝ)
    (last_updated now decay_days decay_blend : ℝ) : List ℝ :=
  if now - last_updated ≤ decay_days * 86400 then user_vec
  else
    normalize (List.zipWith
      (fun u r => (1 - decay_blend) * u + decay_blend * r) user_vec role_vec)

/-- Python `x or now` on an optional float (`None` and `0.0` are falsy). -/
noncomputable def pyOrTime (x : Option ℝ) (now : ℝ) : ℝ :=
  match x with
  | none => now
  | some t => if t = 0 then now else t

/-- Return value of `feedback.apply_feedback` plus the persisted vector. -/
structure FeedbackResult where
  interaction_id : String
  user_id : String
  project_id : String
  thread_ts : String
  action : String
  direction : String
  new_norm : ℝ
  updated_vector : List ℝ

/-- Body of `feedback.apply_feedback`.  `now`, the three environment knobs
and the fresh interaction id are external inputs. -/
noncomputable def apply_feedback_core (db : FeedbackDb)
    (now alpha decay_days decay_blend : ℝ) (interaction_id : String)
    (user_id project_id thread_ts action : String) :
    Except String (FeedbackResult × FeedbackDb) :=
  if ¬ ALL_ACTIONS.contains action then .error "invalid_action"
  else
    match fetch_user db.users user_id with
    | none => .error "user_not_found"
    | some user =>
      match (match user.role_id with
             | some rid => if rid.isEmpty then none else fetch_role db.roles rid
             | none => none) with
      | none => .error "role_not_found"
      | some role =>
        match fetch_embeddingR db.embeddings thread_ts with
        | none => .error "embedding_not_found"
        | some emb =>
          let role_vec := role.role_vector
          let user_vec_raw := match user.user_vector with
            | none => role.role_vector
            | some v => v
          let user_vec0 := normalize user_vec_raw
          let user_vec := _decay_user_vector user_vec0 role_vec
            (pyOrTime user.updated_at now) now decay_days decay_blend
          let item_vec := normalize emb.vector
          let positive := POSITIVE_ACTIONS.contains action
          let updated :=
            if positive then
              List.zipWith (fun u v => alpha * u + (1 - alpha) * v) user_vec item_vec
            else
              List.zipWith (fun u v => alpha * u - (1 - alpha) * v) user_vec item_vec
          let updated := normalize updated
          let db' : FeedbackDb :=
            { db with
                interactions := db.interactions ++
                  [{ interaction_id := interaction_id, user_id := user_id,
                     project_id := project_id, thread_ts := thread_ts,
                     action := action }]
                users := update_user_vector db.users user_id updated }
          .ok ({ interaction_id := interaction_id, user_id := user_id,
                 project_id := project_id, thread_ts := thread_ts,
                 action := action,
                 direction := if positive then "toward" else "away",
                 new_norm := Real.sqrt (sql updated),
                 updated_vector := updated }, db')

/-- The vector produced by the update step of `apply_feedback` (normalize,
no decay, blend toward or away from the normalized item, normalize again). -/
noncomputable def feedbackUpdated (alpha : ℝ) (action : String)
    (u v : List ℝ) : List ℝ :=
  normalize (if POSITIVE_ACTIONS.contains action then
    List.zipWith (fun a b => alpha * a + (1 - alpha) * b)
      (normalize u) (normalize v)
  else
    List.zipWith (fun a b => alpha * a - (1 - alpha) * b)
      (normalize u) (normalize v))

/-- `feedback.apply_feedback` as callable from outside: every call fails
with `ImportError` when `app.feedback` did not load. -/
noncomputable def apply_feedback (db : FeedbackDb)
    (now alpha decay_days decay_blend : ℝ) (interaction_id : String)
    (user_id project_id thread_ts action : String) :
    Except String (FeedbackResult × FeedbackDb) :=
  if feedbackModuleLoads then
    apply_feedback_core db now alpha decay_days decay_blend interaction_id
      user_id project_id thread_ts action
  else .error importErrorMsg

/-- Concrete user row for exercising the feedback step. -/
def c7User : UserRow :=
  { user_id := "U", name := "Ari", role_id := some "R",
    user_vector := some [1, 0], updated_at := some 1 }

/-- Concrete role row for exercising the feedback step. -/
def c7Role : RoleRow :=
  { role_id := "R", name := "PM", description := "desc", role_vector := [1, 0] }

/-- Concrete embedding row (orthogonal to the user vector). -/
def c7Emb : EmbRowR := { thread_ts := "t", vector := [0, 1] }

/-- Concrete embedding row equal to the user vector. -/
def c7EmbEq : EmbRowR := { thread_ts := "t", vector := [1, 0] }

/-- Concrete store for the feedback step (orthogonal item). -/
def c7Db : FeedbackDb :=
  { users := [c7User], roles := [c7Role], embeddings := [c7Emb],
    interactions := [] }

/-- Concrete store for the feedback step (item equal to the user vector). -/
def c7DbEq : FeedbackDb :=
  { users := [c7User], roles := [c7Role], embeddings := [c7EmbEq],
    interactions := [] }

/-- Concrete candidate for the rerank evaluation: a must-include item
(`BLOCKER`, urgency `0.9`) with a low base score. -/
def c10A : Cand :=
  { thread_ts := "a", vector := [1, 0], sim_score := 0, urgency := 9/10,
    updated_at := 0, labels := ["BLOCKER"] }

/-- Concrete candidate for the rerank evaluation: an ordinary item with a
high base score. -/
def c10B : Cand :=
  { thread_ts := "b", vector := [0, 1], sim_score := 1, urgency := 0,
    updated_at := 0, labels := [] }

/-! ## Theorems -/

/-- C1: the name `normalize` imported from `app.embedding` by the feedback
and profiles modules is bound nowhere in that module, so neither module (nor
`app.digest`, which imports from `app.profiles`) loads, and every call to
`apply_feedback`, `create_role`, `create_phase` or `weighted_query_vector`
fails with the import error before executing any of its specified steps. -/
theorem C1_normalize_missing_imports_fail :
    embeddingModuleNames.contains "normalize" = false ∧
    feedbackModuleLoads = false ∧
    profilesModuleLoads = false ∧
    digestModuleLoads = false ∧
    (∀ db now alpha dd dbl iid uid pid tts act,
      apply_feedback db now alpha dd dbl iid uid pid tts act =
        .error importErrorMsg) ∧
    (∀ hashInt roles rid nm desc,
      create_role hashInt roles rid nm desc = .error importErrorMsg) ∧
    (∀ hashInt phases pk desc,
      create_phase hashInt phases pk desc = .error importErrorMsg) ∧
    (∀ rv uv pv wr wu wp,
      weighted_query_vector_call rv uv pv wr wu wp = .error importErrorMsg) := by
  refine ⟨rfl, rfl, rfl, rfl, ?_, ?_, ?_, ?_⟩ <;> intros <;> rfl

/-- C6 counterexample: a `reaction_added` event whose `reaction` field equals
`"rotating_light"` (no text, no reactions list) satisfies the claimed hot
condition but is routed to the standard queue. -/
theorem C6_counterexample_reaction_added_routed_standard :
    claimedHotCondition
      { event_id := "E1", type := "event_callback",
        event := { type := "reaction_added", reaction := some "rotating_light" } } ∧
    (route_job
      { event_id := "E1", type := "event_callback",
        event := { type := "reaction_added", reaction := some "rotating_light" } }
      {}).1 = "standard" :=
  ⟨Or.inr (Or.inr rfl), rfl⟩

/-- The first component of `route_job`, written as one conditional. -/
theorem route_job_fst_eq (p : SlackEventPayload) (qs : QueueState) :
    (route_job p qs).1 =
      if (HOT_SIGNALS.any (fun s => strHasSub (pyLower (p.event.text.getD "")) s)
          || _has_rotating_light p.event.reactions) = true
      then "hot" else "standard" := by
  by_cases h : (HOT_SIGNALS.any (fun s => strHasSub (pyLower (p.event.text.getD "")) s)
      || _has_rotating_light p.event.reactions) = true <;>
    simp [route_job, h]

/-- Unfolding of the rotating-light reactions-list test. -/
theorem _has_rotating_light_iff (o : Option (List SlackReaction)) :
    _has_rotating_light o = true ↔
      ∃ rs, o = some rs ∧ ∃ r ∈ rs, r.name = "rotating_light" := by
  cases o <;> simp [_has_rotating_light, List.any_eq_true]

/-- C6 (amended): `route_job` routes to the hot queue iff the case-folded
text contains one of the hot signals or the `reactions` list carries an entry
named `rotating_light`; the `reaction` string field of `reaction_added`
events is never consulted, and every other event goes to the standard
queue. -/
theorem C6_route_job_hot_iff (p : SlackEventPayload) (qs : QueueState) :
    ((route_job p qs).1 = "hot" ↔
      (∃ s ∈ HOT_SIGNALS, strHasSub (pyLower (p.event.text.getD "")) s = true) ∨
        (∃ rs, p.event.reactions = some rs ∧ ∃ r ∈ rs, r.name = "rotating_light")) ∧
    ((route_job p qs).1 = "hot" ∨ (route_job p qs).1 = "standard") := by
  rw [route_job_fst_eq]
  by_cases h : (HOT_SIGNALS.any (fun s => strHasSub (pyLower (p.event.text.getD "")) s)
      || _has_rotating_light p.event.reactions) = true
  · rw [if_pos h]
    refine ⟨⟨fun _ => ?_, fun _ => rfl⟩, Or.inl rfl⟩
    rcases Bool.or_eq_true_iff.mp h with h1 | h2
    · exact Or.inl (by simpa [List.any_eq_true] using h1)
    · exact Or.inr ((_has_rotating_light_iff _).mp h2)
  · rw [if_neg h]
    refine ⟨⟨fun hc => absurd hc (by simp), fun hc => absurd ?_ h⟩, Or.inr rfl⟩
    rcases hc with h1 | h2
    · exact Bool.or_eq_true_iff.mpr (Or.inl (by simpa [List.any_eq_true] using h1))
    · exact Bool.or_eq_true_iff.mpr (Or.inr ((_has_rotating_light_iff _).mpr h2))

/-- An ingest whose `event_id` is already in the dedupe table returns the
duplicate response and leaves the whole state unchanged. -/
theorem ingest_payload_duplicate (st : IngestState) (p : SlackEventPayload)
    (t : ℚ) (h : st.dedupe.any (fun r => r.1 == p.event_id) = true) :
    ingest_payload st p t = ((false, p.event_id), st) := by
  simp [ingest_payload, insert_dedupe, h]

/-- After any ingest, the payload's `event_id` is in the dedupe table. -/
theorem ingest_payload_mem (st : IngestState) (p : SlackEventPayload) (t : ℚ) :
    ((ingest_payload st p t).2).dedupe.any (fun r => r.1 == p.event_id) = true := by
  by_cases h : st.dedupe.any (fun r => r.1 == p.event_id) = true <;>
    simp [ingest_payload, insert_dedupe, h]

/-- C8: dedupe insertion atomically either inserts the id and reports a first
sighting or leaves the table unchanged and reports a duplicate, and a second
ingest of the same `event_id` short-circuits with a duplicate response,
storing no raw event and enqueueing nothing. -/
theorem C8_dedupe_atomic_and_duplicate_short_circuit
    (table : List (String × ℚ)) (e : String) (now : ℚ)
    (st : IngestState) (p : SlackEventPayload) (t1 t2 : ℚ) :
    (((insert_dedupe table e now).1 = true ∧
        (insert_dedupe table e now).2 = table ++ [(e, now)] ∧
        ¬ ∃ r ∈ table, r.1 = e) ∨
      ((insert_dedupe table e now).1 = false ∧
        (insert_dedupe table e now).2 = table ∧
        ∃ r ∈ table, r.1 = e)) ∧
    ingest_payload (ingest_payload st p t1).2 p t2 =
      ((false, p.event_id), (ingest_payload st p t1).2) := by
  refine ⟨?_, ingest_payload_duplicate _ _ _ (ingest_payload_mem st p t1)⟩
  by_cases h : table.any (fun r => r.1 == e) = true
  · refine Or.inr ⟨?_, ?_, ?_⟩ <;> simp_all [insert_dedupe, List.any_eq_true]
  · refine Or.inl ⟨?_, ?_, ?_⟩ <;> simp_all [insert_dedupe, List.any_eq_true]

/-- C4: after a `message_deleted` event for a reply, recomputing the summary
still contains the "- " line derived from the deleted reply's text, because
`build_summary` never consults `is_deleted` (while the deletion did set the
flag and left the stored text unchanged, and the repository's own test
`test_delete_removes_from_summary` expects the line to disappear). -/
theorem C4_deleted_reply_still_in_summary :
    let root : Message :=
      { channel := "C001", ts := "1", thread_ts := "1", user := some "U001",
        text := some "Root", reactions_json := none, is_deleted := false,
        edited_at := none, created_at := 0 }
    let reply : Message :=
      { channel := "C001", ts := "2", thread_ts := "1", user := some "U002",
        text := some "Reply to remove", reactions_json := none,
        is_deleted := false, edited_at := none, created_at := 0 }
    let castReal : String → ℚ := fun s => if s = "2" then 2 else 1
    let after := mark_message_deleted [root, reply] "C001" "2" 5
    after.map (fun m => (m.ts, m.is_deleted, m.text)) =
      [("1", false, some "Root"), ("2", true, some "Reply to remove")] ∧
    build_summary (get_messages_for_thread castReal after "1") =
      "- Root\n- Reply to remove" := by
  dsimp only
  constructor
  · simp [mark_message_deleted]
  · simp only [mark_message_deleted, get_messages_for_thread, List.map, List.filter]
    simp only [List.insertionSort, List.orderedInsert]
    simp only [build_summary, truthyStr, String.intercalate,
      show ((1 : ℚ) ≤ 2) = True from by norm_num, if_true]
    decide

/-- C9: if a delivery row already exists for a digest id the call returns a
duplicate status carrying the prior delivery's id and inserts nothing; and
starting from a state with no row for the digest id, invoking deliver twice
yields at most one delivered row, the second call answering `duplicate` with
the first call's delivery id and leaving the table unchanged. -/
theorem C9_deliver_at_most_once (rows : List DeliveryRow)
    (digest_id team_id user_id : String)
    (api1 api2 : Except String (Option String)) (id1 id2 : String) (t1 t2 : ℚ) :
    (∀ ex, fetch_delivery_by_digest rows digest_id = some ex →
      deliver_digest rows digest_id team_id user_id api1 id1 t1 =
        ({ status := "duplicate", delivery_id := ex.delivery_id }, rows)) ∧
    (fetch_delivery_by_digest rows digest_id = none →
      (deliver_digest (deliver_digest rows digest_id team_id user_id api1 id1 t1).2
          digest_id team_id user_id api2 id2 t2).1.status = "duplicate" ∧
      (deliver_digest (deliver_digest rows digest_id team_id user_id api1 id1 t1).2
          digest_id team_id user_id api2 id2 t2).1.delivery_id = id1 ∧
      (deliver_digest (deliver_digest rows digest_id team_id user_id api1 id1 t1).2
          digest_id team_id user_id api2 id2 t2).2 =
        (deliver_digest rows digest_id team_id user_id api1 id1 t1).2 ∧
      ((deliver_digest rows digest_id team_id user_id api1 id1 t1).2.filter
        (fun r => r.digest_id == digest_id && r.status == "delivered")).length ≤ 1) := by
  constructor
  · intro ex h
    simp [deliver_digest, h]
  · intro h
    have hnil : rows.filter (fun r => r.digest_id == digest_id) = [] := by
      simpa [fetch_delivery_by_digest, List.head?_eq_none_iff] using h
    have hconj : rows.filter
        (fun r => r.digest_id == digest_id && r.status == "delivered") = [] := by
      rw [List.filter_eq_nil_iff] at hnil ⊢
      intro a ha
      simp only [Bool.and_eq_true, beq_iff_eq, not_and] at *
      intro hd
      exact absurd hd (hnil a ha)
    cases api1 with
    | ok slack_ts =>
      simp [deliver_digest, h, fetch_delivery_by_digest, List.filter_append,
        hnil, hconj]
    | error e =>
      simp [deliver_digest, h, fetch_delivery_by_digest, List.filter_append,
        hnil, hconj]

/-- Witness for C9 at a concrete empty delivery table. -/
theorem C9_deliver_at_most_once_witness :
    fetch_delivery_by_digest [] "g1" = none ∧
    ((deliver_digest (deliver_digest [] "g1" "T" "U" (.ok (some "123")) "d1" 1).2
        "g1" "T" "U" (.ok (some "124")) "d2" 2).1.status = "duplicate" ∧
      (deliver_digest (deliver_digest [] "g1" "T" "U" (.ok (some "123")) "d1" 1).2
        "g1" "T" "U" (.ok (some "124")) "d2" 2).1.delivery_id = "d1" ∧
      (deliver_digest (deliver_digest [] "g1" "T" "U" (.ok (some "123")) "d1" 1).2
        "g1" "T" "U" (.ok (some "124")) "d2" 2).2 =
        (deliver_digest [] "g1" "T" "U" (.ok (some "123")) "d1" 1).2 ∧
      ((deliver_digest [] "g1" "T" "U" (.ok (some "123")) "d1" 1).2.filter
        (fun r => r.digest_id == "g1" && r.status == "delivered")).length ≤ 1) :=
  ⟨rfl, (C9_deliver_at_most_once [] "g1" "T" "U" (.ok (some "123"))
    (.ok (some "124")) "d1" "d2" 1 2).2 rfl⟩

/-- The coarse delivery lookup returns nothing iff no delivery row joins to
the `(team_id, project_id, user_id)` triple at all. -/
theorem fetch_latest_none_iff (deliveries : List DeliveryRow)
    (digests : List DigestRow) (team_id project_id user_id : String)
    (now_utc : ℚ) (tz_name : String) :
    fetch_latest_delivery_for_schedule deliveries digests team_id project_id
        user_id now_utc tz_name = none ↔
      ∀ dd ∈ deliveries, ¬(dd.team_id = team_id ∧ dd.user_id = user_id ∧
        ∃ d ∈ digests, d.digest_id = dd.digest_id ∧ d.project_id = project_id) := by
  unfold fetch_latest_delivery_for_schedule
  rw [List.head?_eq_none_iff]
  have hperm := List.perm_insertionSort
    (fun a b : DeliveryRow => b.delivered_at ≤ a.delivered_at)
    (deliveries.filter (fun dd =>
      dd.team_id == team_id && dd.user_id == user_id &&
        digests.any (fun d => d.digest_id == dd.digest_id && d.project_id == project_id)))
  constructor
  · intro h
    rw [h] at hperm
    have hnil := hperm.symm.eq_nil
    rw [List.filter_eq_nil_iff] at hnil
    intro dd hdd hc
    refine hnil dd hdd ?_
    simp only [Bool.and_eq_true, beq_iff_eq, List.any_eq_true]
    exact ⟨⟨hc.1, hc.2.1⟩, by
      obtain ⟨d, hd, h1, h2⟩ := hc.2.2
      exact ⟨d, hd, by simp [h1, h2]⟩⟩
  · intro h
    have hnil : deliveries.filter (fun dd =>
        dd.team_id == team_id && dd.user_id == user_id &&
          digests.any (fun d => d.digest_id == dd.digest_id &&
            d.project_id == project_id)) = [] := by
      rw [List.filter_eq_nil_iff]
      intro dd hdd hc
      simp only [Bool.and_eq_true, beq_iff_eq, List.any_eq_true] at hc
      refine h dd hdd ⟨hc.1.1, hc.1.2, ?_⟩
      obtain ⟨d, hd, hdc⟩ := hc.2
      exact ⟨d, hd, hdc.1, hdc.2⟩
    rw [hnil]
    rfl

/-- C2 (amended): an enabled schedule fires iff its local time string equals
`time_of_day` and no delivery at all exists for the
`(team_id, project_id, user_id)` triple — a prior delivery recorded in any
earlier minute also suppresses firing, because the lookup ignores
`delivered_at` entirely. -/
theorem C2_scheduler_fires_iff (tzdb : String → Option ℤ)
    (deliveries : List DeliveryRow) (digests : List DigestRow)
    (s : ScheduleRow) (now_utc : ℚ) :
    scheduler_fires tzdb deliveries digests s now_utc = true ↔
      (s.is_enabled = true ∧
        localHHMM ((tzdb s.timezone).getD 0) now_utc = s.time_of_day ∧
        ∀ dd ∈ deliveries, ¬(dd.team_id = s.team_id ∧ dd.user_id = s.user_id ∧
          ∃ d ∈ digests, d.digest_id = dd.digest_id ∧
            d.project_id = s.project_id)) := by
  unfold scheduler_fires _is_due
  by_cases heq : localHHMM ((tzdb s.timezone).getD 0) now_utc = s.time_of_day
  · have hb : (localHHMM ((tzdb s.timezone).getD 0) now_utc != s.time_of_day) = false := by
      simp [heq]
    simp only [hb, Bool.false_eq_true, if_false, Bool.and_eq_true,
      Option.isNone_iff_eq_none, fetch_latest_none_iff]
    exact ⟨fun h => ⟨h.1, heq, h.2⟩, fun h => ⟨h.1, h.2.2⟩⟩
  · have hb : (localHHMM ((tzdb s.timezone).getD 0) now_utc != s.time_of_day) = true := by
      simpa [bne_iff_ne] using heq
    simp only [hb, if_true, Bool.and_false]
    constructor
    · intro h
      cases h
    · rintro ⟨_, h2, _⟩
      exact absurd h2 heq

/-- C2 counterexample: at the matching minute `09:00 UTC`, a schedule with a
single prior delivery for its triple recorded at time `0` (an earlier minute,
even an earlier day) does not fire, although the claimed criterion says it
must. -/
theorem C2_counterexample_earlier_delivery_suppresses :
    scheduler_fires (fun _ => some 0)
      [{ delivery_id := "d1", digest_id := "g1", team_id := "T", user_id := "U",
         delivered_at := 0, status := "delivered", slack_ts := none, error := none }]
      [{ digest_id := "g1", user_id := "U", project_id := "P" }]
      { schedule_id := "s1", team_id := "T", project_id := "P", user_id := "U",
        time_of_day := "09:00", timezone := "UTC", is_enabled := true }
      32400 = false ∧
    claimedFires (fun _ => some 0)
      [{ delivery_id := "d1", digest_id := "g1", team_id := "T", user_id := "U",
         delivered_at := 0, status := "delivered", slack_ts := none, error := none }]
      [{ digest_id := "g1", user_id := "U", project_id := "P" }]
      { schedule_id := "s1", team_id := "T", project_id := "P", user_id := "U",
        time_of_day := "09:00", timezone := "UTC", is_enabled := true }
      32400 := by
  constructor
  · decide
  · refine ⟨by decide, ?_⟩
    intro dd hdd _
    simp only [List.mem_singleton] at hdd
    subst hdd
    decide

/-- C3 counterexample: a project whose stored channel set is empty places no
restriction at all — a recent item in an unrelated channel is returned, where
the claim requires the empty set. -/
theorem C3_counterexample_empty_channels_returns_all :
    load_candidate_items
      [{ project_id := "P", name := "Alpha", current_phase := "EVT",
         channels_json := some [] }]
      [{ thread_ts := "t1", channel := "C9", labels := [], entities := [],
         urgency := some 1, updated_at := 100, title := "T", summary := "S" }]
      [{ thread_ts := "t1", vector := [1] }]
      (some "P") none (some 0) none 0 24 =
      .ok [{ thread_ts := "t1", vector := [1], urgency := 1, labels := [],
             entities := [], updated_at := 100, title := "T", summary := "S" }] := by
  rfl

/-- C3 (amended): with a project id supplied and the project found, a
non-empty stored channel set restricts the candidates to items in those
channels, but an empty (or null) stored channel set applies no restriction:
the result equals the unrestricted query. -/
theorem C3_project_channel_scoping (projects : List ProjectRow)
    (items : List ItemRow) (embeddings : List EmbeddingRow) (pid : String)
    (p : ProjectRow) (channels0 : Option (List String)) (since : ℚ)
    (lf : Option (List String)) (now wh : ℚ)
    (hp : fetch_project projects pid = some p) :
    (∀ cs, p.channels_json = some cs → cs ≠ [] →
      ∀ l, load_candidate_items projects items embeddings (some pid) channels0
          (some since) lf now wh = .ok l →
        ∀ c ∈ l, ∃ di ∈ items, di.thread_ts = c.thread_ts ∧ di.channel ∈ cs) ∧
    ((p.channels_json = some [] ∨ p.channels_json = none) →
      load_candidate_items projects items embeddings (some pid) channels0
          (some since) lf now wh =
        load_candidate_items projects items embeddings none none
          (some since) lf now wh) := by
  constructor
  · intro cs hcs hne l hl c hc
    have hchan : _load_project_channels projects pid = .ok (some cs) := by
      simp only [_load_project_channels, hp, hcs]
      simp [List.isEmpty_iff, hne]
    simp only [load_candidate_items, hchan] at hl
    simp only [Except.ok.injEq] at hl
    subst hl
    unfold load_candidate_rows at hc
    rw [List.mem_filterMap] at hc
    obtain ⟨di, hdi, hf⟩ := hc
    rw [List.mem_filter] at hdi
    obtain ⟨hmem, hcond⟩ := hdi
    refine ⟨di, hmem, ?_, ?_⟩
    · rcases hfind : embeddings.find? (fun e => e.thread_ts == di.thread_ts) with _ | e
      · rw [hfind] at hf
        cases hf
      · rw [hfind] at hf
        dsimp only at hf
        by_cases hlf : ((lf.getD []).map pyUpper) ≠ [] ∧
            ¬ ((lf.getD []).map pyUpper).any (fun lab => di.labels.contains lab) = true
        · rw [if_pos hlf] at hf
          cases hf
        · rw [if_neg hlf] at hf
          cases hf
          rfl
    · simp only [Bool.and_eq_true, decide_eq_true_eq] at hcond
      have h2 := hcond.2
      rw [if_neg (by simpa [List.isEmpty_iff] using hne)] at h2
      simpa using h2
  · intro hd
    have hchan : _load_project_channels projects pid = .ok none := by
      simp only [_load_project_channels, hp]
      rcases hd with h | h <;> rw [h] <;> simp
    simp only [load_candidate_items, hchan]

/-- Witness for C3 at a concrete one-project store with one channel. -/
theorem C3_project_channel_scoping_witness :
    fetch_project [c3Project] "P" = some c3Project ∧
    ((∀ cs, c3Project.channels_json = some cs → cs ≠ [] →
      ∀ l, load_candidate_items [c3Project] [c3Item] [c3Emb] (some "P") none
          (some 0) none 0 24 = .ok l →
        ∀ c ∈ l, ∃ di ∈ [c3Item], di.thread_ts = c.thread_ts ∧
          di.channel ∈ cs) ∧
    ((c3Project.channels_json = some [] ∨ c3Project.channels_json = none) →
      load_candidate_items [c3Project] [c3Item] [c3Emb] (some "P") none
          (some 0) none 0 24 =
        load_candidate_items [c3Project] [c3Item] [c3Emb] none none
          (some 0) none 0 24)) :=
  ⟨rfl, C3_project_channel_scoping [c3Project] [c3Item] [c3Emb] "P" c3Project
    none 0 none 0 24 rfl⟩

/-- Combining role and user contributions with a zero phase column. -/
theorem zipWith3_zero_phase (wr wu : ℝ) : ∀ (u v : List ℝ),
    List.zipWith3 (fun a b c => a + b + c) (u.map (fun x => wr * x))
      (v.map (fun x => wu * x)) (List.replicate u.length 0) =
      List.zipWith (fun a b => wr * a + wu * b) u v
  | [], _ => rfl
  | _ :: _, [] => rfl
  | a :: u, b :: v => by
    simp only [List.map_cons, List.length_cons, List.replicate_succ,
      List.zipWith3, List.zipWith_cons_cons, add_zero]
    exact congrArg _ (zipWith3_zero_phase wr wu u v)

/-- C5 counterexample: at the default weights `0.45/0.35/0.20` with the phase
vector absent, the returned role and user weights sum to `1`, not to
`w_role + w_user = 0.8` as the claim states. -/
theorem C5_counterexample_weights_sum_to_one :
    (weighted_query_vector [1, 0] (some [0, 1]) none
        (45/100) (35/100) (20/100)).weight_phase = 0 ∧
    (weighted_query_vector [1, 0] (some [0, 1]) none
        (45/100) (35/100) (20/100)).weight_role +
      (weighted_query_vector [1, 0] (some [0, 1]) none
        (45/100) (35/100) (20/100)).weight_user = 1 ∧
    (weighted_query_vector [1, 0] (some [0, 1]) none
        (45/100) (35/100) (20/100)).weight_role +
      (weighted_query_vector [1, 0] (some [0, 1]) none
        (45/100) (35/100) (20/100)).weight_user ≠ (45/100 : ℝ) + 35/100 := by
  refine ⟨rfl, ?_, ?_⟩ <;> norm_num [weighted_query_vector]

/-- C5 (amended): when the phase vector is absent the phase weight is zero
and the role and user weights are renormalized to `w/(w_role + w_user)`, so
they sum to 1 (not to `w_role + w_user`); the returned `q_vector` is the L2
normalization of the componentwise combination with those renormalized
weights. -/
theorem C5_weighted_query_vector_phase_absent (role_vec : List ℝ)
    (user_vec : Option (List ℝ)) (wr wu wp : ℝ) (h : wr + wu ≠ 0) :
    (weighted_query_vector role_vec user_vec none wr wu wp).weight_phase = 0 ∧
    (weighted_query_vector role_vec user_vec none wr wu wp).weight_role =
      wr / (wr + wu) ∧
    (weighted_query_vector role_vec user_vec none wr wu wp).weight_user =
      wu / (wr + wu) ∧
    (weighted_query_vector role_vec user_vec none wr wu wp).weight_role +
      (weighted_query_vector role_vec user_vec none wr wu wp).weight_user = 1 ∧
    (weighted_query_vector role_vec user_vec none wr wu wp).q_vector =
      normalize (List.zipWith
        (fun a b => (wr / (wr + wu)) * a + (wu / (wr + wu)) * b)
        role_vec (pyOrVec user_vec role_vec)) := by
  refine ⟨rfl, rfl, rfl, ?_, ?_⟩
  · show wr / (wr + wu) + wu / (wr + wu) = 1
    field_simp
  · show normalize (List.zipWith3 (fun a b c => a + b + c)
        (role_vec.map (fun v => (wr / (wr + wu)) * v))
        ((pyOrVec user_vec role_vec).map (fun v => (wu / (wr + wu)) * v))
        (List.replicate role_vec.length 0)) = _
    rw [zipWith3_zero_phase]

/-- Witness for C5 at the default weights and two basis vectors. -/
theorem C5_weighted_query_vector_phase_absent_witness :
    ((45/100 : ℝ) + 35/100 ≠ 0) ∧
    ((weighted_query_vector [1, 0] (some [0, 1]) none
        (45/100) (35/100) (20/100)).weight_phase = 0 ∧
      (weighted_query_vector [1, 0] (some [0, 1]) none
        (45/100) (35/100) (20/100)).weight_role = (45/100) / (45/100 + 35/100) ∧
      (weighted_query_vector [1, 0] (some [0, 1]) none
        (45/100) (35/100) (20/100)).weight_user = (35/100) / (45/100 + 35/100) ∧
      (weighted_query_vector [1, 0] (some [0, 1]) none
        (45/100) (35/100) (20/100)).weight_role +
        (weighted_query_vector [1, 0] (some [0, 1]) none
          (45/100) (35/100) (20/100)).weight_user = 1 ∧
      (weighted_query_vector [1, 0] (some [0, 1]) none
        (45/100) (35/100) (20/100)).q_vector =
        normalize (List.zipWith
          (fun a b => ((45/100) / (45/100 + 35/100)) * a +
            ((35/100) / (45/100 + 35/100)) * b)
          [1, 0] (pyOrVec (some [0, 1]) [1, 0]))) :=
  ⟨by norm_num, C5_weighted_query_vector_phase_absent [1, 0] (some [0, 1])
    (45/100) (35/100) (20/100) (by norm_num)⟩

/-- The stored sum of squares is the self dot product. -/
theorem sql_eq_dotR (v : List ℝ) : sql v = dotR v v := by
  induction v with
  | nil => rfl
  | cons a v ih =>
    simp only [sql, dotR, List.map_cons, List.zipWith_cons_cons,
      List.sum_cons] at ih ⊢
    rw [ih]

/-- Dot products are symmetric. -/
theorem dotR_comm (a : List ℝ) : ∀ b : List ℝ, dotR a b = dotR b a := by
  induction a with
  | nil => intro b; cases b <;> rfl
  | cons x a ih =>
    intro b
    cases b with
    | nil => rfl
    | cons y b =>
      simp only [dotR, List.zipWith_cons_cons, List.sum_cons] at ih ⊢
      rw [mul_comm x y, ih]

/-- Linearity of the dot product in a componentwise combination. -/
theorem dotR_combo (c d : ℝ) : ∀ (u v x : List ℝ), u.length = v.length →
    dotR (List.zipWith (fun a b => c * a + d * b) u v) x =
      c * dotR u x + d * dotR v x
  | [], [], _, _ => by simp [dotR]
  | [], _ :: _, _, h => nomatch h
  | _ :: _, [], _, h => nomatch h
  | a :: u, b :: v, [], _ => by simp [dotR]
  | a :: u, b :: v, e :: x, h => by
    have h' : u.length = v.length := Nat.succ.inj h
    have ih := dotR_combo c d u v x h'
    simp only [dotR, List.zipWith_cons_cons, List.sum_cons] at ih ⊢
    rw [ih]
    ring

/-- Linearity of the dot product in a componentwise difference. -/
theorem dotR_combo_sub (c d : ℝ) : ∀ (u v x : List ℝ), u.length = v.length →
    dotR (List.zipWith (fun a b => c * a - d * b) u v) x =
      c * dotR u x - d * dotR v x
  | [], [], _, _ => by simp [dotR]
  | [], _ :: _, _, h => nomatch h
  | _ :: _, [], _, h => nomatch h
  | a :: u, b :: v, [], _ => by simp [dotR]
  | a :: u, b :: v, e :: x, h => by
    have h' : u.length = v.length := Nat.succ.inj h
    have ih := dotR_combo_sub c d u v x h'
    simp only [dotR, List.zipWith_cons_cons, List.sum_cons] at ih ⊢
    rw [ih]
    ring

/-- Dividing every component divides the dot product. -/
theorem dotR_map_div (n : ℝ) : ∀ (w x : List ℝ),
    dotR (w.map (fun y => y / n)) x = dotR w x / n
  | [], x => by simp [dotR]
  | a :: w, [] => by simp [dotR]
  | a :: w, e :: x => by
    have ih := dotR_map_div n w x
    simp only [dotR, List.map_cons, List.zipWith_cons_cons, List.sum_cons] at ih ⊢
    rw [ih]
    ring

/-- Dot product against a normalized vector. -/
theorem normalize_dot (w x : List ℝ) (h : Real.sqrt (sql w) ≠ 0) :
    dotR (normalize w) x = dotR w x / Real.sqrt (sql w) := by
  unfold normalize
  rw [if_neg h]
  exact dotR_map_div _ w x

/-- Normalizing a unit vector is the identity. -/
theorem normalize_unit (u : List ℝ) (h : sql u = 1) : normalize u = u := by
  unfold normalize
  rw [h, Real.sqrt_one, if_neg one_ne_zero]
  simp

/-- The scalar inequality behind the feedback step at `alpha = 0.9`: for a
cosine `t` strictly between `-1` and `1`,
`t * sqrt(0.82 + 0.18 t) < 0.9 t + 0.1`. -/
theorem feedback_scalar_bound (t : ℝ) (h1 : -1 < t) (h2 : t < 1) :
    t * Real.sqrt (82/100 + 18/100 * t) < 9/10 * t + 1/10 := by
  set s := Real.sqrt (82/100 + 18/100 * t) with hs
  have hs2 : s ^ 2 = 82/100 + 18/100 * t := Real.sq_sqrt (by linarith)
  have hs0 : 0 ≤ s := Real.sqrt_nonneg _
  have hs8 : 4/5 ≤ s := by
    have h45 : (4/5 : ℝ) = Real.sqrt (16/25) := by
      rw [show (16/25 : ℝ) = (4/5)^2 by norm_num, Real.sqrt_sq (by norm_num)]
    rw [h45, hs]
    exact Real.sqrt_le_sqrt (by linarith)
  by_cases hts : t ≤ 0
  · have h3 : t * s ≤ t * (4/5) := mul_le_mul_of_nonpos_left hs8 hts
    linarith
  · push_neg at hts
    have expand : (9/10*t + 1/10)^2 - (t*s)^2 = (1 - t^2) * (18/100*t + 1/100) := by
      rw [mul_pow, hs2]
      ring
    have hpos2 : 0 < (1 - t^2) * (18/100*t + 1/100) := by
      apply mul_pos
      · nlinarith
      · linarith
    have hsq : (t*s)^2 < (9/10*t + 1/10)^2 := by linarith
    have hb : 0 < 9/10*t + 1/10 := by linarith
    by_contra hcon
    push_neg at hcon
    have : (9/10*t + 1/10)^2 ≤ (t*s)^2 := pow_le_pow_left (le_of_lt hb) hcon 2
    linarith

/-- The positive feedback step strictly increases the cosine against the
item when the two unit vectors are neither equal nor opposite. -/
theorem dot_normalize_combo_gt (u v : List ℝ) (hlen : u.length = v.length)
    (hu1 : sql u = 1) (hv1 : sql v = 1)
    (ht1 : -1 < dotR u v) (ht2 : dotR u v < 1) :
    dotR u v <
      dotR (normalize (List.zipWith (fun a b => 9/10 * a + 1/10 * b) u v)) v := by
  set t := dotR u v with htdef
  set w := List.zipWith (fun a b => 9/10 * a + 1/10 * b) u v with hwdef
  have huu : dotR u u = 1 := by rw [← sql_eq_dotR]; exact hu1
  have hvv : dotR v v = 1 := by rw [← sql_eq_dotR]; exact hv1
  have hvu : dotR v u = t := by rw [dotR_comm]
  have hwu : dotR w u = 9/10 * 1 + 1/10 * t := by
    rw [hwdef, dotR_combo _ _ _ _ _ hlen, huu, hvu]
  have hwv : dotR w v = 9/10 * t + 1/10 := by
    rw [hwdef, dotR_combo _ _ _ _ _ hlen, hvv]
    ring
  have hww : dotR w w = 82/100 + 18/100 * t := by
    have h1 : dotR w w = 9/10 * dotR u w + 1/10 * dotR v w := by
      rw [hwdef, dotR_combo _ _ _ _ _ hlen]
    rw [h1, dotR_comm u w, dotR_comm v w, hwu, hwv]
    ring
  have hsql : sql w = 82/100 + 18/100 * t := by rw [sql_eq_dotR]; exact hww
  have hpos : (0:ℝ) < 82/100 + 18/100 * t := by linarith
  have hsne : Real.sqrt (sql w) ≠ 0 := by
    rw [hsql]
    exact ne_of_gt (Real.sqrt_pos.mpr hpos)
  rw [normalize_dot w v hsne, hwv, hsql]
  rw [lt_div_iff (Real.sqrt_pos.mpr hpos)]
  exact feedback_scalar_bound t ht1 ht2

/-- The negative feedback step strictly decreases the cosine against the
item when the two unit vectors are neither equal nor opposite. -/
theorem dot_normalize_combo_lt (u v : List ℝ) (hlen : u.length = v.length)
    (hu1 : sql u = 1) (hv1 : sql v = 1)
    (ht1 : -1 < dotR u v) (ht2 : dotR u v < 1) :
    dotR (normalize (List.zipWith (fun a b => 9/10 * a - 1/10 * b) u v)) v <
      dotR u v := by
  set t := dotR u v with htdef
  set w := List.zipWith (fun a b => 9/10 * a - 1/10 * b) u v with hwdef
  have huu : dotR u u = 1 := by rw [← sql_eq_dotR]; exact hu1
  have hvv : dotR v v = 1 := by rw [← sql_eq_dotR]; exact hv1
  have hvu : dotR v u = t := by rw [dotR_comm]
  have hwu : dotR w u = 9/10 * 1 - 1/10 * t := by
    rw [hwdef, dotR_combo_sub _ _ _ _ _ hlen, huu, hvu]
  have hwv : dotR w v = 9/10 * t - 1/10 := by
    rw [hwdef, dotR_combo_sub _ _ _ _ _ hlen, hvv]
    ring
  have hww : dotR w w = 82/100 - 18/100 * t := by
    have h1 : dotR w w = 9/10 * dotR u w - 1/10 * dotR v w := by
      rw [hwdef, dotR_combo_sub _ _ _ _ _ hlen]
    rw [h1, dotR_comm u w, dotR_comm v w, hwu, hwv]
    ring
  have hsql : sql w = 82/100 - 18/100 * t := by rw [sql_eq_dotR]; exact hww
  have hpos : (0:ℝ) < 82/100 - 18/100 * t := by linarith
  have hsne : Real.sqrt (sql w) ≠ 0 := by
    rw [hsql]
    exact ne_of_gt (Real.sqrt_pos.mpr hpos)
  rw [normalize_dot w v hsne, hwv, hsql]
  rw [div_lt_iff (Real.sqrt_pos.mpr hpos)]
  have hneg := feedback_scalar_bound (-t) (by linarith) (by linarith)
  have harg : 82/100 + 18/100 * (-t) = 82/100 - 18/100 * t := by ring
  rw [harg] at hneg
  linarith

/-- Evaluation of `apply_feedback_core` along its success path. -/
theorem apply_feedback_core_eq (db : FeedbackDb)
    (now alpha decay_days decay_blend : ℝ) (iid uid pid tts action : String)
    (user : UserRow) (rid : String) (role : RoleRow) (emb : EmbRowR)
    (uvec : List ℝ)
    (halla : ALL_ACTIONS.contains action = true)
    (hu : fetch_user db.users uid = some user)
    (hrid : user.role_id = some rid) (hridne : rid.isEmpty = false)
    (hr : fetch_role db.roles rid = some role)
    (he : fetch_embeddingR db.embeddings tts = some emb)
    (huv : user.user_vector = some uvec)
    (hdecay : now - pyOrTime user.updated_at now ≤ decay_days * 86400) :
    apply_feedback_core db now alpha decay_days decay_blend iid uid
        pid tts action =
      .ok ({ interaction_id := iid, user_id := uid, project_id := pid,
             thread_ts := tts, action := action,
             direction := if POSITIVE_ACTIONS.contains action then "toward"
               else "away",
             new_norm := Real.sqrt
               (sql (feedbackUpdated alpha action uvec emb.vector)),
             updated_vector := feedbackUpdated alpha action uvec emb.vector },
           { db with
               interactions := db.interactions ++
                 [{ interaction_id := iid, user_id := uid, project_id := pid,
                    thread_ts := tts, action := action }]
               users := update_user_vector db.users uid
                 (feedbackUpdated alpha action uvec emb.vector) }) := by
  have hnn : ¬¬(ALL_ACTIONS.contains action = true) := not_not_intro halla
  unfold apply_feedback_core
  rw [if_neg hnn, hu]
  try dsimp only
  rw [hrid]
  try dsimp only
  rw [hridne]
  simp only [Bool.false_eq_true, ite_false]
  try dsimp only
  rw [hr, he]
  try dsimp only
  rw [huv]
  try dsimp only
  unfold _decay_user_vector
  rw [if_pos hdecay]
  rfl

/-- C7 (amended): with the decay path not taken and the user and item vectors
unit-norm and neither equal nor opposite (cosine strictly between -1 and 1),
a positive action strictly increases `dot(u', v)` and a negative action
strictly decreases it, at the default step size `alpha = 0.9`. -/
theorem C7_feedback_moves_dot (db : FeedbackDb)
    (now decay_days decay_blend : ℝ) (iid uid pid tts action : String)
    (user : UserRow) (rid : String) (role : RoleRow) (emb : EmbRowR)
    (uvec : List ℝ)
    (hu : fetch_user db.users uid = some user)
    (hrid : user.role_id = some rid) (hridne : rid.isEmpty = false)
    (hr : fetch_role db.roles rid = some role)
    (he : fetch_embeddingR db.embeddings tts = some emb)
    (huv : user.user_vector = some uvec)
    (hlen : uvec.length = emb.vector.length)
    (hu1 : sql uvec = 1) (hv1 : sql emb.vector = 1)
    (hdecay : now - pyOrTime user.updated_at now ≤ decay_days * 86400)
    (ht1 : -1 < dotR uvec emb.vector) (ht2 : dotR uvec emb.vector < 1) :
    (action ∈ POSITIVE_ACTIONS →
      ∃ res db', apply_feedback_core db now (9/10) decay_days decay_blend iid
          uid pid tts action = .ok (res, db') ∧
        dotR uvec emb.vector < dotR res.updated_vector emb.vector) ∧
    (action ∈ NEGATIVE_ACTIONS →
      ∃ res db', apply_feedback_core db now (9/10) decay_days decay_blend iid
          uid pid tts action = .ok (res, db') ∧
        dotR res.updated_vector emb.vector < dotR uvec emb.vector) := by
  constructor
  · intro hmem
    have hpc : POSITIVE_ACTIONS.contains action = true := by
      simpa using hmem
    have halla : ALL_ACTIONS.contains action = true := by
      have : action ∈ ALL_ACTIONS := by
        unfold ALL_ACTIONS
        exact List.mem_append_left _ hmem
      simpa using this
    refine ⟨_, _, apply_feedback_core_eq db now (9/10)
      decay_days decay_blend iid uid pid tts action user rid role emb uvec
      halla hu hrid hridne hr he huv hdecay, ?_⟩
    show dotR uvec emb.vector <
      dotR (feedbackUpdated (9/10) action uvec emb.vector) emb.vector
    unfold feedbackUpdated
    rw [if_pos hpc, normalize_unit uvec hu1, normalize_unit emb.vector hv1]
    have h910 : (1 : ℝ) - 9/10 = 1/10 := by norm_num
    rw [h910]
    exact dot_normalize_combo_gt uvec emb.vector hlen hu1 hv1 ht1 ht2
  · intro hmem
    have hnc : POSITIVE_ACTIONS.contains action = false := by
      simp only [NEGATIVE_ACTIONS, List.mem_cons, List.mem_singleton,
        List.not_mem_nil, or_false] at hmem
      rcases hmem with h | h <;> subst h <;> rfl
    have halla : ALL_ACTIONS.contains action = true := by
      have : action ∈ ALL_ACTIONS := by
        unfold ALL_ACTIONS
        exact List.mem_append_right _ hmem
      simpa using this
    refine ⟨_, _, apply_feedback_core_eq db now (9/10)
      decay_days decay_blend iid uid pid tts action user rid role emb uvec
      halla hu hrid hridne hr he huv hdecay, ?_⟩
    show dotR (feedbackUpdated (9/10) action uvec emb.vector) emb.vector <
      dotR uvec emb.vector
    unfold feedbackUpdated
    rw [if_neg (by rw [hnc]; simp), normalize_unit uvec hu1,
      normalize_unit emb.vector hv1]
    have h910 : (1 : ℝ) - 9/10 = 1/10 := by norm_num
    rw [h910]
    exact dot_normalize_combo_lt uvec emb.vector hlen hu1 hv1 ht1 ht2

/-- C7 counterexample: when the (unit) user vector equals the (unit) item
vector, a positive action leaves `dot(u', v)` at exactly `1`: there is no
strict increase, so the claim fails without the added hypothesis
`-1 < dot(u, v) < 1`. -/
theorem C7_counterexample_equal_vectors :
    sql [(1:ℝ), 0] = 1 ∧ sql c7EmbEq.vector = 1 ∧
    ∃ res db',
      apply_feedback_core c7DbEq 1 (9/10) 14 (5/100) "i1" "U" "P" "t" "click" =
        .ok (res, db') ∧
      res.updated_vector = [(1:ℝ), 0] ∧
      ¬ (dotR [(1:ℝ), 0] c7EmbEq.vector <
          dotR res.updated_vector c7EmbEq.vector) := by
  have h1 : sql [(1:ℝ), 0] = 1 := by norm_num [sql]
  have hvec : feedbackUpdated (9/10) "click" [1, 0] c7EmbEq.vector = [(1:ℝ), 0] := by
    unfold feedbackUpdated
    rw [if_pos (show POSITIVE_ACTIONS.contains "click" = true from rfl)]
    show normalize (List.zipWith _ (normalize [1, 0]) (normalize c7EmbEq.vector)) = _
    rw [show c7EmbEq.vector = [(1:ℝ), 0] from rfl]
    rw [normalize_unit _ h1]
    have hz : List.zipWith (fun a b => 9/10 * a + (1 - 9/10) * b)
        [(1:ℝ), 0] [(1:ℝ), 0] = [1, 0] := by
      norm_num [List.zipWith]
    rw [hz, normalize_unit _ h1]
  refine ⟨h1, by norm_num [sql, c7EmbEq], _, _,
    apply_feedback_core_eq c7DbEq 1 (9/10) 14 (5/100) "i1" "U" "P" "t" "click"
      c7User "R" c7Role c7EmbEq [1, 0] rfl rfl rfl rfl rfl rfl rfl
      (by norm_num [pyOrTime, c7User]), ?_, ?_⟩
  · exact hvec
  · show ¬ (dotR [(1:ℝ), 0] c7EmbEq.vector <
        dotR (feedbackUpdated (9/10) "click" [1, 0] c7EmbEq.vector) c7EmbEq.vector)
    rw [hvec]
    exact lt_irrefl _

/-- Witness for C7 at a concrete store with orthogonal unit vectors and the
action `click`. -/
theorem C7_feedback_moves_dot_witness :
    (fetch_user c7Db.users "U" = some c7User ∧
      c7User.role_id = some "R" ∧
      "R".isEmpty = false ∧
      fetch_role c7Db.roles "R" = some c7Role ∧
      fetch_embeddingR c7Db.embeddings "t" = some c7Emb ∧
      c7User.user_vector = some [1, 0] ∧
      ([(1:ℝ), 0]).length = c7Emb.vector.length ∧
      sql [(1:ℝ), 0] = 1 ∧ sql c7Emb.vector = 1 ∧
      (1:ℝ) - pyOrTime c7User.updated_at 1 ≤ 14 * 86400 ∧
      -1 < dotR [(1:ℝ), 0] c7Emb.vector ∧ dotR [(1:ℝ), 0] c7Emb.vector < 1) ∧
    (("click" ∈ POSITIVE_ACTIONS →
      ∃ res db', apply_feedback_core c7Db 1 (9/10) 14 (5/100) "i1"
          "U" "P" "t" "click" = .ok (res, db') ∧
        dotR [(1:ℝ), 0] c7Emb.vector < dotR res.updated_vector c7Emb.vector) ∧
    ("click" ∈ NEGATIVE_ACTIONS →
      ∃ res db', apply_feedback_core c7Db 1 (9/10) 14 (5/100) "i1"
          "U" "P" "t" "click" = .ok (res, db') ∧
        dotR res.updated_vector c7Emb.vector < dotR [(1:ℝ), 0] c7Emb.vector)) :=
  ⟨⟨rfl, rfl, rfl, rfl, rfl, rfl, rfl, by norm_num [sql],
    by norm_num [sql, c7Emb], by norm_num [pyOrTime, c7User],
    by norm_num [dotR, c7Emb, List.zipWith],
    by norm_num [dotR, c7Emb, List.zipWith]⟩,
  C7_feedback_moves_dot c7Db 1 14 (5/100) "i1" "U" "P" "t" "click" c7User "R"
    c7Role c7Emb [1, 0] rfl rfl rfl rfl rfl rfl rfl (by norm_num [sql])
    (by norm_num [sql, c7Emb]) (by norm_num [pyOrTime, c7User])
    (by norm_num [dotR, c7Emb, List.zipWith])
    (by norm_num [dotR, c7Emb, List.zipWith])⟩

/-- Code-point list comparison is irreflexive. -/
theorem listCharLT_irrefl : ∀ a : List Char, listCharLT a a = false
  | [] => rfl
  | c :: a => by
    simp only [listCharLT, lt_irrefl, if_false]
    exact listCharLT_irrefl a

/-- Code-point list comparison is transitive. -/
theorem listCharLT_trans : ∀ a b c : List Char, listCharLT a b = true →
    listCharLT b c = true → listCharLT a c = true
  | [], [], _, h1, _ => by cases h1
  | [], _ :: _, [], _, h2 => by cases h2
  | [], _ :: _, _ :: _, _, _ => rfl
  | _ :: _, [], _, h1, _ => by cases h1
  | _ :: _, _ :: _, [], _, h2 => by cases h2
  | x :: a, y :: b, z :: c, h1, h2 => by
    simp only [listCharLT] at h1 h2 ⊢
    split_ifs at h1 h2 ⊢ <;>
      first
        | rfl
        | omega
        | (exfalso; omega)
        | exact listCharLT_trans a b c h1 h2
        | simp_all

/-- Two code-point lists neither of which precedes the other are equal. -/
theorem listCharLT_eq_of_not : ∀ a b : List Char, listCharLT a b = false →
    listCharLT b a = false → a = b
  | [], [], _, _ => rfl
  | [], _ :: _, h1, _ => by cases h1
  | _ :: _, [], _, h2 => by cases h2
  | x :: a, y :: b, h1, h2 => by
    simp only [listCharLT] at h1 h2
    split_ifs at h1 h2 <;> first
      | cases h1
      | cases h2
      | · have hn : x.toNat = y.toNat := by omega
          have hxy : x = y := Char.eq_of_val_eq (UInt32.toNat.inj hn)
          rw [hxy, listCharLT_eq_of_not a b h1 h2]

/-- String comparison is irreflexive. -/
theorem strLT_irrefl (s : String) : strLT s s = false :=
  listCharLT_irrefl s.data

/-- String comparison is transitive. -/
theorem strLT_trans (s t u : String) (h1 : strLT s t = true)
    (h2 : strLT t u = true) : strLT s u = true :=
  listCharLT_trans s.data t.data u.data h1 h2

/-- Two strings neither of which precedes the other are equal. -/
theorem strLT_eq_of_not (s t : String) (h1 : strLT s t = false)
    (h2 : strLT t s = false) : s = t := by
  cases s
  cases t
  exact congrArg String.mk
    (by simpa using listCharLT_eq_of_not _ _ h1 h2)

/-- Reflexivity of one descending lexicographic step. -/
theorem lexDesc_refl (x : ℚ) (r : Bool) (h : r = true) : lexDesc x x r = true := by
  simp [lexDesc, h]

/-- Transitivity of one descending lexicographic step. -/
theorem lexDesc_trans (x y z : ℚ) (r1 r2 r3 : Bool)
    (h1 : lexDesc x y r1 = true) (h2 : lexDesc y z r2 = true)
    (hr : r1 = true → r2 = true → r3 = true) : lexDesc x z r3 = true := by
  unfold lexDesc at h1 h2 ⊢
  split_ifs at h1 h2 ⊢ <;>
    first
      | rfl
      | linarith
      | (exfalso; linarith)
      | exact hr h1 h2
      | simp_all

/-- Totality of one descending lexicographic step. -/
theorem lexDesc_total (x y : ℚ) (r1 r2 : Bool) (h : r1 = true ∨ r2 = true) :
    lexDesc x y r1 = true ∨ lexDesc y x r2 = true := by
  unfold lexDesc
  split_ifs <;>
    first
      | exact Or.inl rfl
      | exact Or.inr rfl
      | exact h
      | linarith

/-- Reflexivity of the string component. -/
theorem lexStr_refl (s : String) : lexStr s s = true := by
  unfold lexStr
  split_ifs <;> rfl

/-- The string component expressed through the underlying comparison. -/
theorem lexStr_true_iff (s t : String) :
    lexStr s t = true ↔ (strLT s t = true ∨ strLT t s = false) := by
  unfold lexStr
  rcases h1 : strLT s t with _ | _ <;> rcases h2 : strLT t s with _ | _ <;>
    simp [h1, h2]

/-- Transitivity of the string component. -/
theorem lexStr_trans (s t u : String) (h1 : lexStr s t = true)
    (h2 : lexStr t u = true) : lexStr s u = true := by
  rw [lexStr_true_iff] at h1 h2 ⊢
  rcases h1 with h1 | h1 <;> rcases h2 with h2 | h2
  · exact Or.inl (strLT_trans _ _ _ h1 h2)
  · refine Or.inr ?_
    by_contra hus
    rw [Bool.not_eq_false] at hus
    exact absurd (strLT_trans u s t hus h1) (by simp [h2])
  · refine Or.inr ?_
    by_contra hus
    rw [Bool.not_eq_false] at hus
    exact absurd (strLT_trans t u s h2 hus) (by simp [h1])
  · refine Or.inr ?_
    by_contra hus
    rw [Bool.not_eq_false] at hus
    rcases htu : strLT t u with _ | _
    · rw [strLT_eq_of_not t u htu h2] at h1
      exact absurd hus (by simp [h1])
    · exact absurd (strLT_trans t u s htu hus) (by simp [h1])

/-- Totality of the string component. -/
theorem lexStr_total (s t : String) : lexStr s t = true ∨ lexStr t s = true := by
  rw [lexStr_true_iff, lexStr_true_iff]
  rcases h : strLT t s with _ | _
  · exact Or.inl (Or.inr rfl)
  · exact Or.inr (Or.inl rfl)

/-- The rerank key order is reflexive. -/
theorem rLE_refl (a : Cand) : rLE a a = true := by
  unfold rLE
  exact lexDesc_refl _ _ (lexDesc_refl _ _ (lexDesc_refl _ _
    (lexDesc_refl _ _ (lexStr_refl _))))

/-- The rerank key order is transitive. -/
theorem rLE_trans (a b c : Cand) (h1 : rLE a b = true) (h2 : rLE b c = true) :
    rLE a c = true := by
  unfold rLE at h1 h2 ⊢
  refine lexDesc_trans _ _ _ _ _ _ h1 h2 (fun g1 g2 => ?_)
  refine lexDesc_trans _ _ _ _ _ _ g1 g2 (fun g1 g2 => ?_)
  refine lexDesc_trans _ _ _ _ _ _ g1 g2 (fun g1 g2 => ?_)
  refine lexDesc_trans _ _ _ _ _ _ g1 g2 (fun g1 g2 => ?_)
  exact lexStr_trans _ _ _ g1 g2

/-- The rerank key order is total. -/
theorem rLE_total (a b : Cand) : rLE a b = true ∨ rLE b a = true := by
  unfold rLE
  exact lexDesc_total _ _ _ _ (lexDesc_total _ _ _ _ (lexDesc_total _ _ _ _
    (lexDesc_total _ _ _ _ (lexStr_total _ _))))

/-- The must-include key order is reflexive. -/
theorem mLE_refl (a : Cand) : mLE a a = true := by
  unfold mLE
  exact lexDesc_refl _ _ (lexDesc_refl _ _ (lexDesc_refl _ _ (lexStr_refl _)))

/-- The must-include key order is transitive. -/
theorem mLE_trans (a b c : Cand) (h1 : mLE a b = true) (h2 : mLE b c = true) :
    mLE a c = true := by
  unfold mLE at h1 h2 ⊢
  refine lexDesc_trans _ _ _ _ _ _ h1 h2 (fun g1 g2 => ?_)
  refine lexDesc_trans _ _ _ _ _ _ g1 g2 (fun g1 g2 => ?_)
  refine lexDesc_trans _ _ _ _ _ _ g1 g2 (fun g1 g2 => ?_)
  exact lexStr_trans _ _ _ g1 g2

/-- The must-include key order is total. -/
theorem mLE_total (a b : Cand) : mLE a b = true ∨ mLE b a = true := by
  unfold mLE
  exact lexDesc_total _ _ _ _ (lexDesc_total _ _ _ _
    (lexDesc_total _ _ _ _ (lexStr_total _ _)))

/-- Appending a candidate to a non-empty selected set can only increase the
maximum similarity. -/
theorem maxSim_append_le (sel : List Cand) (c : Cand) (v : List ℚ)
    (h : sel ≠ []) : maxSim sel v ≤ maxSim (sel ++ [c]) v := by
  cases sel with
  | nil => exact absurd rfl h
  | cons s0 rest =>
    unfold maxSim
    simp only [List.cons_append, List.map_cons, List.map_append,
      List.foldl_append]
    simp only [List.map_cons, List.map_nil, List.foldl_cons, List.foldl_nil]
    exact le_max_left _ _

/-- A candidate precedes (in the rerank key) any record with the same base
fields and a final score that is not larger. -/
theorem rLE_of_le_final (a b : Cand) (hbase : a.base_score = b.base_score)
    (hurg : a.urgency = b.urgency) (hupd : a.updated_at = b.updated_at)
    (hts : a.thread_ts = b.thread_ts) (hfin : b.final_score ≤ a.final_score) :
    rLE a b = true := by
  unfold rLE
  by_cases h : b.final_score < a.final_score
  · unfold lexDesc
    rw [if_pos h]
  · have heq : a.final_score = b.final_score := le_antisymm (not_lt.mp h) hfin
    rw [heq, hbase, hurg, hupd, hts]
    exact lexDesc_refl _ _ (lexDesc_refl _ _ (lexDesc_refl _ _
      (lexDesc_refl _ _ (lexStr_refl _))))

/-- The head of an insertion sort is minimal for the sort relation. -/
theorem insertionSort_head_min {α : Type} (r : α → α → Prop) [DecidableRel r]
    (hrefl : ∀ a, r a a) (htot : ∀ a b, r a b ∨ r b a)
    (htr : ∀ a b c, r a b → r b c → r a c)
    (l : List α) (c : α) (rest : List α)
    (h : List.insertionSort r l = c :: rest) : ∀ x ∈ l, r c x := by
  have hsorted := @List.sorted_insertionSort α r _ ⟨htot⟩ ⟨htr⟩ l
  rw [h] at hsorted
  intro x hx
  have hx' : x ∈ c :: rest := by
    rw [← h]
    exact ((List.perm_insertionSort r l).symm.mem_iff).mp hx
  rcases List.mem_cons.mp hx' with hceq | hmem
  · rw [hceq]
    exact hrefl _
  · exact (List.pairwise_cons.mp hsorted).1 x hmem

/-- `updateFinal` leaves the base fields unchanged. -/
theorem updateFinal_sameBase (lam : ℚ) (sel : List Cand) (x : Cand) :
    sameBase x (updateFinal lam sel x) :=
  ⟨rfl, rfl, rfl, rfl, rfl⟩

/-- `sameBase` is transitive. -/
theorem sameBase_trans {a b c : Cand} (h1 : sameBase a b) (h2 : sameBase b c) :
    sameBase a c := by
  obtain ⟨u1, u2, u3, u4, u5⟩ := h1
  obtain ⟨v1, v2, v3, v4, v5⟩ := h2
  exact ⟨u1.trans v1, u2.trans v2, u3.trans v3, u4.trans v4, u5.trans v5⟩

/-- Rescoring against a larger selected set can only move a candidate later
in the rerank key order. -/
theorem rLE_updateFinal_extend (lam : ℚ) (hlam : 0 ≤ lam) (sel : List Cand)
    (c y : Cand) (hsel : sel ≠ []) :
    rLE (updateFinal lam sel y) (updateFinal lam (sel ++ [c]) y) = true := by
  refine rLE_of_le_final (updateFinal lam sel y)
    (updateFinal lam (sel ++ [c]) y) rfl rfl rfl rfl ?_
  show y.base_score - lam * maxSim (sel ++ [c]) y.vector ≤
    y.base_score - lam * maxSim sel y.vector
  have := maxSim_append_le sel c y.vector hsel
  nlinarith

/-- Main invariant of the MMR loop: called with a non-empty selected prefix,
it returns that prefix followed by extra picks that are sorted in the rerank
key order, each of which traces back to a remaining candidate whose key at
entry already bounds it from below. -/
theorem mmrLoop_invariant (lam : ℚ) (hlam : 0 ≤ lam) :
    ∀ (fuel : ℕ) (sel rem : List Cand) (n : ℕ), sel ≠ [] →
      ∃ extra, mmrLoop lam fuel sel rem n = sel ++ extra ∧
        List.Pairwise rLEP extra ∧
        ∀ e ∈ extra, ∃ x ∈ rem, sameBase x e ∧
          rLE (updateFinal lam sel x) e = true := by
  intro fuel
  induction fuel with
  | zero =>
    intro sel rem n _
    exact ⟨[], by simp [mmrLoop], List.Pairwise.nil, by simp⟩
  | succ fuel ih =>
    intro sel rem n hsel
    by_cases hstop : rem.isEmpty || n ≤ sel.length
    · refine ⟨[], ?_, List.Pairwise.nil, by simp⟩
      unfold mmrLoop
      rw [if_pos hstop]
      simp
    · rcases hsort : List.insertionSort (fun a b => rLE a b = true)
          (rem.map (updateFinal lam sel)) with _ | ⟨c, rest⟩
      · refine ⟨[], ?_, List.Pairwise.nil, by simp⟩
        unfold mmrLoop
        rw [if_neg hstop]
        dsimp only
        rw [hsort]
        simp
      · obtain ⟨extra2, heq2, hpw2, hbound2⟩ :=
          ih (sel ++ [c]) rest n (by simp)
        have hresteq : ∀ y ∈ rest, ∃ x ∈ rem, y = updateFinal lam sel x := by
          intro y hy
          have hymem : y ∈ rem.map (updateFinal lam sel) := by
            have : y ∈ c :: rest := List.mem_cons_of_mem _ hy
            rw [← hsort] at this
            exact (List.perm_insertionSort _ _).mem_iff.mp this
          obtain ⟨x, hx, hxy⟩ := List.mem_map.mp hymem
          exact ⟨x, hx, hxy.symm⟩
        have hcmem : ∃ x ∈ rem, c = updateFinal lam sel x := by
          have hcm : c ∈ rem.map (updateFinal lam sel) := by
            have : c ∈ c :: rest := List.mem_cons_self _ _
            rw [← hsort] at this
            exact (List.perm_insertionSort _ _).mem_iff.mp this
          obtain ⟨x, hx, hxy⟩ := List.mem_map.mp hcm
          exact ⟨x, hx, hxy.symm⟩
        have hcmin : ∀ y ∈ rest, rLE c y = true := by
          have hsorted := @List.sorted_insertionSort Cand
            (fun a b => rLE a b = true) _ ⟨rLE_total⟩
            ⟨rLE_trans⟩ (rem.map (updateFinal lam sel))
          rw [hsort] at hsorted
          exact fun y hy => (List.pairwise_cons.mp hsorted).1 y hy
        have hbound2' : ∀ e ∈ extra2, rLE c e = true ∧
            ∃ x ∈ rem, sameBase x e ∧ rLE (updateFinal lam sel x) e = true := by
          intro e he
          obtain ⟨y, hy, hsb, hkey⟩ := hbound2 e he
          obtain ⟨x, hx, hyx⟩ := hresteq y hy
          have hylec : rLE y (updateFinal lam (sel ++ [c]) y) = true := by
            rw [hyx]
            have : updateFinal lam (sel ++ [c]) (updateFinal lam sel x) =
                updateFinal lam (sel ++ [c]) x := rfl
            rw [this]
            exact rLE_updateFinal_extend lam hlam sel c x hsel
          have hye : rLE y e = true := rLE_trans _ _ _ hylec hkey
          refine ⟨rLE_trans _ _ _ (hcmin y hy) hye, x, hx, ?_, ?_⟩
          · have hxy : sameBase x y := by
              rw [hyx]
              exact updateFinal_sameBase lam sel x
            exact sameBase_trans hxy hsb
          · rw [← hyx]
            exact hye
        refine ⟨c :: extra2, ?_, ?_, ?_⟩
        · unfold mmrLoop
          rw [if_neg hstop]
          dsimp only
          rw [hsort]
          dsimp only
          rw [heq2]
          simp
        · rw [List.pairwise_cons]
          exact ⟨fun e he => (hbound2' e he).1, hpw2⟩
        · intro e he
          rcases List.mem_cons.mp he with hec | he2
          · obtain ⟨x, hx, hxy⟩ := hcmem
            refine ⟨x, hx, ?_, ?_⟩
            · rw [hec, hxy]
              exact updateFinal_sameBase lam sel x
            · rw [hec, hxy]
              exact rLE_refl _
          · exact (hbound2' e he2).2

/-- With an empty must-include pool, `rerank_candidates` starts the MMR loop
from the empty selected list over the whole enriched set. -/
theorem rerank_candidates_pool_nil (castReal : String → ℚ) (msgs : List Message)
    (candidates : List Cand) (user_id : String) (n : ℕ)
    (lam now window_seconds : ℚ)
    (h : mustIncludePool (candidates.map
      (enrichCand castReal msgs user_id now window_seconds)) = []) :
    rerank_candidates castReal msgs candidates user_id n lam now window_seconds =
      mmrLoop lam
        (candidates.map (enrichCand castReal msgs user_id now window_seconds)).length
        [] (candidates.map (enrichCand castReal msgs user_id now window_seconds)) n := by
  unfold rerank_candidates
  dsimp only
  rw [h]
  simp

/-- With a non-empty must-include pool whose sort starts with `forced`,
`rerank_candidates` starts the MMR loop from the forced pick (marked
`force_included`) over the enriched set minus its thread. -/
theorem rerank_candidates_pool_forced (castReal : String → ℚ) (msgs : List Message)
    (candidates : List Cand) (user_id : String) (n : ℕ)
    (lam now window_seconds : ℚ) (forced : Cand) (tl : List Cand)
    (hs : List.insertionSort (fun a b => mLE a b = true)
      (mustIncludePool (candidates.map
        (enrichCand castReal msgs user_id now window_seconds))) = forced :: tl) :
    rerank_candidates castReal msgs candidates user_id n lam now window_seconds =
      mmrLoop lam
        ((candidates.map (enrichCand castReal msgs user_id now window_seconds)).filter
          (fun c => !((([{ forced with force_included := true }] : List Cand).map
            (fun s => s.thread_ts)).contains c.thread_ts))).length
        [{ forced with force_included := true }]
        ((candidates.map (enrichCand castReal msgs user_id now window_seconds)).filter
          (fun c => !((([{ forced with force_included := true }] : List Cand).map
            (fun s => s.thread_ts)).contains c.thread_ts)))
        n := by
  have hne : (mustIncludePool (candidates.map
      (enrichCand castReal msgs user_id now window_seconds))).isEmpty = false := by
    cases hq : mustIncludePool (candidates.map
        (enrichCand castReal msgs user_id now window_seconds)) with
    | nil =>
      rw [hq] at hs
      exact absurd hs (by simp [List.insertionSort])
    | cons a l => rfl
  unfold rerank_candidates
  dsimp only
  rw [hne, hs]
  simp only [Bool.false_eq_true, ite_false]

/-- C10: amended. For every candidate set, user, `n`, nonnegative diversity
weight, clock and window, the list returned by `rerank_candidates` with
position 0 removed is sorted by the key
`(-final_score, -base_score, -urgency, -updated_at, thread_ts)`; and whenever
the must-include pool (urgency at least `0.8` with `BLOCKER` or `DECISION`
among the labels) is non-empty, position 0 of the returned list is the
top-ranked element of that pool by
`(-base_score, -urgency, -updated_at, thread_ts)` and carries
`force_included = true`.  (The original claim asserted the WHOLE returned
list is sorted by the rerank key; the forced pick at position 0 breaks that,
see the counterexample.) -/
theorem C10_rerank_drop_one_sorted_and_forced_head (castReal : String → ℚ)
    (msgs : List Message) (candidates : List Cand) (user_id : String) (n : ℕ)
    (lam now window_seconds : ℚ) (hlam : 0 ≤ lam) :
    List.Pairwise rLEP
      ((rerank_candidates castReal msgs candidates user_id n lam now
        window_seconds).drop 1) ∧
    (mustIncludePool (candidates.map
        (enrichCand castReal msgs user_id now window_seconds)) ≠ [] →
      ∃ forced rest,
        rerank_candidates castReal msgs candidates user_id n lam now
            window_seconds =
          { forced with force_included := true } :: rest ∧
        forced ∈ mustIncludePool (candidates.map
          (enrichCand castReal msgs user_id now window_seconds)) ∧
        ∀ m ∈ mustIncludePool (candidates.map
          (enrichCand castReal msgs user_id now window_seconds)),
          mLEP forced m) := by
  by_cases hpool : mustIncludePool (candidates.map
      (enrichCand castReal msgs user_id now window_seconds)) = []
  · constructor
    · rw [rerank_candidates_pool_nil castReal msgs candidates user_id n lam now
        window_seconds hpool]
      cases hE : candidates.map (enrichCand castReal msgs user_id now
          window_seconds) with
      | nil =>
        simp [mmrLoop]
      | cons e es =>
        simp only [List.length_cons]
        by_cases hstop : ((e :: es).isEmpty ||
            decide (n ≤ ([] : List Cand).length)) = true
        · unfold mmrLoop
          rw [if_pos hstop]
          simp
        · rcases hsort : List.insertionSort (fun a b => rLE a b = true)
              ((e :: es).map (updateFinal lam [])) with _ | ⟨c, rest⟩
          · unfold mmrLoop
            rw [if_neg hstop]
            dsimp only
            rw [hsort]
            simp
          · obtain ⟨extra, heq, hpw, _⟩ :=
              mmrLoop_invariant lam hlam es.length ([] ++ [c]) rest n (by simp)
            unfold mmrLoop
            rw [if_neg hstop]
            dsimp only
            rw [hsort]
            dsimp only
            rw [heq]
            simpa using hpw
    · intro hcon
      exact absurd hpool hcon
  · rcases hs : List.insertionSort (fun a b => mLE a b = true)
        (mustIncludePool (candidates.map
          (enrichCand castReal msgs user_id now window_seconds)))
        with _ | ⟨forced, tl⟩
    · exfalso
      have hperm := List.perm_insertionSort (fun a b => mLE a b = true)
        (mustIncludePool (candidates.map
          (enrichCand castReal msgs user_id now window_seconds)))
      rw [hs] at hperm
      exact hpool hperm.symm.eq_nil
    · have hre := rerank_candidates_pool_forced castReal msgs candidates
        user_id n lam now window_seconds forced tl hs
      obtain ⟨extra, heq, hpw, _⟩ := mmrLoop_invariant lam hlam
        ((candidates.map (enrichCand castReal msgs user_id now
          window_seconds)).filter
          (fun c => !((([{ forced with force_included := true }] :
            List Cand).map (fun s => s.thread_ts)).contains
            c.thread_ts))).length
        [{ forced with force_included := true }]
        ((candidates.map (enrichCand castReal msgs user_id now
          window_seconds)).filter
          (fun c => !((([{ forced with force_included := true }] :
            List Cand).map (fun s => s.thread_ts)).contains c.thread_ts)))
        n (by simp)
      constructor
      · rw [hre, heq]
        simpa using hpw
      · intro _
        refine ⟨forced, extra, ?_, ?_, ?_⟩
        · rw [hre, heq]
          rfl
        · have hperm := List.perm_insertionSort (fun a b => mLE a b = true)
            (mustIncludePool (candidates.map
              (enrichCand castReal msgs user_id now window_seconds)))
          rw [hs] at hperm
          exact hperm.mem_iff.mp (List.mem_cons_self _ _)
        · intro m hm
          exact insertionSort_head_min (fun a b => mLE a b = true) mLE_refl
            mLE_total mLE_trans
            (mustIncludePool (candidates.map
              (enrichCand castReal msgs user_id now window_seconds)))
            forced tl hs m hm

/-- C10: counterexample to the original claim.  With a low-scoring
must-include candidate and a high-scoring ordinary candidate, the returned
list is `[forced, other]` with `final_score` `7/25 < 13/20`, so the whole
returned list is NOT sorted by the rerank key
`(-final_score, -base_score, -urgency, -updated_at, thread_ts)`. -/
theorem C10_counterexample_forced_head_not_globally_sorted :
    ¬ List.Pairwise rLEP
      (rerank_candidates (fun _ => 0) [] [c10A, c10B] "u" 10 (1/5) 0 86400) := by
  intro hpw
  have hmap : (rerank_candidates (fun _ => 0) [] [c10A, c10B] "u" 10 (1/5) 0
      86400).map (fun c => c.final_score) = [7/25, 13/20] := by
    norm_num [rerank_candidates, enrichCand, mustIncludePool, _recency_score,
      _ownership_score, _base_score, get_messages_for_thread, mmrLoop,
      updateFinal, maxSim, cosine_sim, mLE, rLE, lexDesc, lexStr, c10A, c10B,
      List.insertionSort, List.orderedInsert,
      show ("b" = "a") = False from by simp]
  rcases hr : rerank_candidates (fun _ => 0) [] [c10A, c10B] "u" 10 (1/5) 0
      86400 with _ | ⟨x, _ | ⟨y, tail⟩⟩
  · rw [hr] at hmap
    exact absurd hmap (by simp)
  · rw [hr] at hmap
    exact absurd hmap (by simp)
  · rw [hr] at hmap hpw
    simp only [List.map_cons, List.cons.injEq] at hmap
    obtain ⟨h1, h2, -⟩ := hmap
    have hxy : rLE x y = true :=
      (List.pairwise_cons.mp hpw).1 y (List.mem_cons_self _ _)
    have hlt : x.final_score < y.final_score := by
      rw [h1, h2]
      norm_num
    have hfalse : rLE x y = false := by
      unfold rLE lexDesc
      rw [if_neg (not_lt.mpr hlt.le), if_pos hlt]
    exact Bool.false_ne_true (hfalse ▸ hxy)

/-- Closed instance of the amended C10 theorem at the concrete candidate
pair. -/
theorem C10_rerank_drop_one_sorted_and_forced_head_witness :
    List.Pairwise rLEP
      ((rerank_candidates (fun _ => 0) [] [c10A, c10B] "u" 10 (1/5) 0
        86400).drop 1) ∧
    (mustIncludePool ([c10A, c10B].map
        (enrichCand (fun _ => 0) [] "u" 0 86400)) ≠ [] →
      ∃ forced rest,
        rerank_candidates (fun _ => 0) [] [c10A, c10B] "u" 10 (1/5) 0 86400 =
          { forced with force_included := true } :: rest ∧
        forced ∈ mustIncludePool ([c10A, c10B].map
          (enrichCand (fun _ => 0) [] "u" 0 86400)) ∧
        ∀ m ∈ mustIncludePool ([c10A, c10B].map
          (enrichCand (fun _ => 0) [] "u" 0 86400)),
          mLEP forced m) :=
  C10_rerank_drop_one_sorted_and_forced_head (fun _ => 0) [] [c10A, c10B] "u"
    10 (1/5) 0 86400 (by norm_num)

end BBR
